import Mathlib

/-!
Verification development for the midi-sparkle repository (an audio toy that
synthesizes nature-themed sound buffers sample-by-sample and drives them from
MIDI toggle events).

Conventions of the embedding:
- Python float literals are modelled as the exact rational numbers they denote
  (0.7 is 7/10, 65.41 is 6541/100, and so on); arithmetic is exact.
- Per-sample synthesis loops become functions from the sample index i to the
  real sample value, with t = i / 22050 (the fixed sample rate).
- Python `x % y` on nonnegative floats (y > 0) is `qmod x y = x - y * floor (x/y)`.
- `np.random.uniform` draws are an explicit input stream `noise : Nat -> Real`.
- `int(...)` truncation of a nonnegative quantity is `Int.floor`, and the final
  `(arr * 32767).astype(np.int16)` conversion is `astype_int16` (truncation
  toward zero).
- The pygame channel pool is an explicit input: each event handler receives a
  Boolean saying whether `pygame.mixer.find_channel()` returned a channel.
- Reading the mapping file is an explicit input of type `MappingFile`
  (missing / malformed JSON / successfully parsed document); the Python
  `try/except FileNotFoundError` becomes a match on it, and an uncaught
  exception is an `Except.error`.
-/

namespace MidiSparkle

/-- Waveform carrier: sin of 2*pi times x cycles; x is the exact rational
number of cycles (frequency times time), so the source's
np.sin(2 * np.pi * f * t) is sinOf (f * t). -/
noncomputable def sinOf (x : ℚ) : ℝ := Real.sin (2 * Real.pi * (x : ℝ))

/-- Python float modulo for a positive modulus: x % y = x - y * floor (x / y). -/
def qmod (x y : ℚ) : ℚ := x - y * ⌊x / y⌋

/-- Truncation of a float sample scaled by 32767 to a machine integer, as done
by (arr * 32767).astype(np.int16) for in-range values: C truncation toward 0. -/
noncomputable def astype_int16 (x : ℝ) : ℤ := if 0 ≤ x then ⌊x * 32767⌋ else ⌈x * 32767⌉

/-- Safety invariant of one sample: the float value lies in [-1, 1] and its
quantization lies in the signed 16-bit range. -/
noncomputable def safe_sample (x : ℝ) : Prop :=
  |x| ≤ 1 ∧ -32768 ≤ astype_int16 x ∧ astype_int16 x ≤ 32767

namespace AudioSynthesizer

/-- Fixed sample rate of the synthesizer (22050 Hz). -/
def sample_rate : ℚ := 22050

/-- Time offset of sample i: t = i / self.sample_rate. -/
def tof (i : ℕ) : ℚ := (i : ℚ) / sample_rate

/-- Frequency limits applied inside the generate_tone loop body:
if frequency < 200: frequency = 200; elif frequency > 4000: frequency = 4000. -/
def clamp_frequency (f : ℚ) : ℚ := if f < 200 then 200 else if f > 4000 then 4000 else f

/-- Value of the local variable `frequency` of generate_tone at the start of
loop iteration i: the argument itself for i = 0, and the result of the clamp
statement run at the end of each earlier iteration otherwise. -/
def generate_tone_freq (frequency : ℚ) : ℕ → ℚ
  | 0 => frequency
  | i + 1 => clamp_frequency (generate_tone_freq frequency i)

/-- Number of frames generated: int(duration * self.sample_rate). -/
def generate_tone_frames (duration : ℚ) : ℕ := (⌊duration * sample_rate⌋).toNat

/-- Base waveform computed at iteration i of generate_tone, from the current
value of `frequency` (see generate_tone_freq) and t = i / sample_rate. -/
noncomputable def generate_tone_wave (frequency : ℚ) (wave_type : String)
    (noise : ℕ → ℝ) (i : ℕ) : ℝ :=
  let t : ℚ := tof i
  let f : ℚ := generate_tone_freq frequency i
  if wave_type = "sine" then sinOf (f * t)
  else if wave_type = "triangle" then 2 * Real.arcsin (sinOf (f * t)) / Real.pi
  else if wave_type = "sawtooth" then ((2 * (t * f - ⌊t * f + 1/2⌋) : ℚ) : ℝ)
  else if wave_type = "noise" then noise i
  else sinOf (f * t)

/-- Envelope computed at iteration i of generate_tone. -/
noncomputable def generate_tone_env (duration : ℚ) (envelope : String) (i : ℕ) : ℝ :=
  let t : ℚ := tof i
  if envelope = "soft" then Real.exp (-(t : ℝ) * 2)
  else if envelope = "sustain" then
    (if t < duration * (8/10) then 1 else Real.exp (-((t : ℝ) - (duration : ℝ) * (8/10)) * 10))
  else 1

/-- Sample i written by generate_tone (each stereo channel):
wave * env * 0.3. -/
noncomputable def generate_tone_sample (frequency duration : ℚ)
    (wave_type envelope : String) (noise : ℕ → ℝ) (i : ℕ) : ℝ :=
  generate_tone_wave frequency wave_type noise i
    * generate_tone_env duration envelope i * (3/10)

end AudioSynthesizer

namespace NatureSounds

open AudioSynthesizer (tof)

/-- Frames in every 4-second background texture: int(4.0 * 22050) = 88200. -/
def texture_frames : ℕ := 88200

/-- Sample i of _create_earth_sound: three-layer C2/G2/C3 bass with harmonics,
pitch vibrato, breathing LFO, gain 0.154. -/
noncomputable def earth_sample (i : ℕ) : ℝ :=
  let t : ℚ := tof i
  let c2_fundamental : ℝ := 0.7 * sinOf (65.41 * t)
  let c2_harmonic2 : ℝ := 0.25 * sinOf (65.41 * 2 * t)
  let c2_harmonic3 : ℝ := 0.15 * sinOf (65.41 * 3 * t)
  let g2_fundamental : ℝ := 0.5 * sinOf (98.00 * t)
  let g2_harmonic2 : ℝ := 0.2 * sinOf (98.00 * 2 * t)
  let c3_fundamental : ℝ := 0.4 * sinOf (130.81 * t)
  let c3_harmonic2 : ℝ := 0.15 * sinOf (130.81 * (3/2) * t)
  let breathing_lfo : ℝ := 0.82 + 0.18 * sinOf (0.08 * t)
  let pitch_vibrato : ℝ := 1 + 0.008 * sinOf (0.3 * t)
  let earth_bass : ℝ :=
    ((c2_fundamental + c2_harmonic2 + c2_harmonic3) +
     (g2_fundamental + g2_harmonic2) +
     (c3_fundamental + c3_harmonic2)) * pitch_vibrato
  earth_bass * breathing_lfo * 0.154

/-- Strike times of _create_thunder_sound. -/
def thunder_strike_times : List ℚ := [0.3, 2.2]

/-- Sample i of _create_thunder_sound: per strike time, if the time from the
strike is inside [0, 1.8], a rich C1/G1/C2 bass chord shaped by a fast-attack
(50 ms, slope 20) / exponential-decay (rate 1.2) envelope; contributions of
the strikes are summed and scaled by 0.22. -/
noncomputable def thunder_sample (i : ℕ) : ℝ :=
  let t : ℚ := tof i
  (thunder_strike_times.map (fun strike_time =>
    let time_from_strike : ℚ := t - strike_time
    if 0 ≤ time_from_strike ∧ time_from_strike ≤ 1.8 then
      let c1_fundamental : ℝ := 0.8 * sinOf (32.70 * t)
      let c1_harmonic2 : ℝ := 0.4 * sinOf (32.70 * 2 * t)
      let c1_harmonic3 : ℝ := 0.2 * sinOf (32.70 * 3 * t)
      let g1_fundamental : ℝ := 0.6 * sinOf (49.00 * t)
      let g1_harmonic2 : ℝ := 0.3 * sinOf (49.00 * 2 * t)
      let c2_fundamental : ℝ := 0.5 * sinOf (65.41 * t)
      let c2_harmonic2 : ℝ := 0.25 * sinOf (65.41 * (3/2) * t)
      let c2_harmonic3 : ℝ := 0.15 * sinOf (65.41 * (5/2) * t)
      let envelope : ℝ :=
        if time_from_strike < 0.05 then (time_from_strike : ℝ) * 20
        else Real.exp (-((time_from_strike : ℝ) - 0.05) * 1.2)
      let thunder_bass : ℝ :=
        (c1_fundamental + c1_harmonic2 + c1_harmonic3) +
        (g1_fundamental + g1_harmonic2) +
        (c2_fundamental + c2_harmonic2 + c2_harmonic3)
      thunder_bass * envelope
    else 0)).sum * 0.22

/-- Eighth-note frequency chosen by _create_rain_texture at a given slot index
of the 16-slot loop, if the slot has a droplet (rests return none). -/
def rain_freq_at (note_index : ℤ) : Option ℚ :=
  if note_index ∈ ([0, 2, 4] : List ℤ) then
    some (([659.25, 880.00, 1318.51] : List ℚ).getD (note_index / 2).toNat 0)
  else if note_index ∈ ([8, 9] : List ℤ) then
    some (([880.00, 659.25] : List ℚ).getD (note_index - 8).toNat 0)
  else if note_index ∈ ([12, 13, 14] : List ℤ) then
    some (([1318.51, 880.00, 659.25] : List ℚ).getD (note_index - 12).toNat 0)
  else none

/-- Sample i of _create_rain_texture: 8th-note slots (0.25 s) in the 4-second
loop; slots with a droplet get a sine plus a 0.15-weighted 1.5x harmonic under
a fast-attack (slope 10, 0.1 window) / decay (rate 6) envelope, gain 0.08. -/
noncomputable def rain_sample (i : ℕ) : ℝ :=
  let t : ℚ := tof i
  let note_position : ℚ := qmod t 4 / 0.25
  let note_index : ℤ := ⌊note_position⌋ % 16
  let note_time : ℚ := qmod t 0.25 / 0.25
  (match rain_freq_at note_index with
   | some rain_freq =>
     let envelope : ℝ :=
       if note_time < 0.1 then (note_time : ℝ) * 10
       else Real.exp (-((note_time : ℝ) - 0.1) * 6)
     sinOf (rain_freq * t) * envelope + 0.15 * sinOf (rain_freq * (3/2) * t) * envelope
   | none => 0) * 0.08

/-- Sample i of _create_wind_texture: sustained D4/G4/A4 chord with harmonics,
slow pitch sway, 4-second main gust swell and 1-second flutter, gain 0.09. -/
noncomputable def wind_sample (i : ℕ) : ℝ :=
  let t : ℚ := tof i
  let d4_fundamental : ℝ := 0.6 * sinOf (293.66 * t)
  let d4_harmonic2 : ℝ := 0.2 * sinOf (293.66 * (3/2) * t)
  let d4_harmonic3 : ℝ := 0.1 * sinOf (293.66 * 2 * t)
  let g4_fundamental : ℝ := 0.5 * sinOf (392.00 * t)
  let g4_harmonic2 : ℝ := 0.15 * sinOf (392.00 * (5/4) * t)
  let a4_fundamental : ℝ := 0.45 * sinOf (440.00 * t)
  let a4_harmonic2 : ℝ := 0.12 * sinOf (440.00 * (3/4) * t)
  let main_gust : ℝ := 0.4 + 0.6 * sinOf (0.25 * t)
  let detail_flutter : ℝ := 1 + 0.15 * sinOf (1 * t)
  let pitch_sway : ℝ := 1 + 0.005 * sinOf (0.5 * t)
  let wind_chord : ℝ :=
    ((d4_fundamental + d4_harmonic2 + d4_harmonic3) +
     (g4_fundamental + g4_harmonic2) +
     (a4_fundamental + a4_harmonic2)) * pitch_sway
  wind_chord * main_gust * detail_flutter * 0.09

/-- Syncopated 16th-note hit table of _create_trees_texture. -/
def trees_hit_pattern : List (ℤ × String) :=
  [(0, "strong"), (2, "light"), (5, "medium"), (8, "strong"), (11, "light"), (14, "medium")]

/-- Frequency and volume multiplier chosen by _create_trees_texture for a hit
type: strong gets D4 at 1.0, medium G3 at 0.7, light G3 at 0.4. -/
def trees_freq_vol (hit_type : String) : ℚ × ℚ :=
  if hit_type = "strong" then (293.66, 1)
  else if hit_type = "medium" then (196.00, 0.7)
  else (196.00, 0.4)

/-- Sample i of _create_trees_texture: woody percussion hits at the pattern
slots (hit window 0.15 s) with 10 ms attack, decay rate 12, a 1.5x harmonic
and a short 3x click, gain 0.12. -/
noncomputable def trees_sample (i : ℕ) : ℝ :=
  let t : ℚ := tof i
  let note_position : ℚ := qmod t 4 / 0.25
  let note_index : ℤ := ⌊note_position⌋
  let note_time : ℚ := qmod note_position 1 * 0.25
  (trees_hit_pattern.map (fun hit =>
    if note_index = hit.1 ∧ note_time < 0.15 then
      let fv : ℚ × ℚ := trees_freq_vol hit.2
      let envelope : ℝ :=
        if note_time < 0.01 then (note_time : ℝ) * 100
        else Real.exp (-((note_time : ℝ) - 0.01) * 12)
      let fundamental : ℝ := sinOf (fv.1 * t)
      let harmonic : ℝ := 0.3 * sinOf (fv.1 * (3/2) * t)
      let click : ℝ := if note_time < 0.005 then 0.2 * sinOf (fv.1 * 3 * t) else 0
      (fundamental + harmonic + click) * envelope * (fv.2 : ℝ)
    else 0)).sum * 0.12

/-- Chirp onset times of _create_birds_texture. -/
def bird_times : List ℚ := [0.5, 1.8, 3.2]

/-- Sample i of _create_birds_texture: near each chirp time (0.3 s window) a
pitch-warbled sine decaying at rate 3; contributions summed, gain 0.08. -/
noncomputable def birds_sample (i : ℕ) : ℝ :=
  let t : ℚ := tof i
  (bird_times.map (fun bird_time =>
    if |t - bird_time| < 0.3 then
      let local_t : ℚ := t - bird_time + 0.3
      if 0 ≤ local_t then
        let bird_freq : ℝ := 1200 + 200 * sinOf (8 * local_t)
        Real.sin (2 * Real.pi * bird_freq * (local_t : ℝ)) * Real.exp (-(local_t : ℝ) * 3)
      else 0
    else 0)).sum * 0.08

/-- Hi-hat style 16th-note hit table of _create_insects_texture. -/
def insects_hihat_pattern : List (ℤ × String) :=
  [(0, "closed"), (2, "open"), (4, "closed"), (6, "closed"), (8, "closed"),
   (10, "open"), (12, "closed"), (14, "closed"),
   (1, "ghost"), (3, "ghost"), (9, "ghost"), (13, "ghost")]

/-- Frequency, volume multiplier and decay rate chosen by
_create_insects_texture for a hit type. -/
def insects_freq_vol_decay (hit_type : String) : ℚ × ℚ × ℚ :=
  if hit_type = "open" then (1318.51, 0.8, 8)
  else if hit_type = "closed" then (880.00, 0.6, 15)
  else (880.00, 0.25, 20)

/-- Sample i of _create_insects_texture: crisp hits at the pattern slots (hit
window 0.08 s) with 2 ms attack, per-type decay, sparkle harmonics at 1.3x,
1.7x and a 2.1x sizzle, gain 0.09. -/
noncomputable def insects_sample (i : ℕ) : ℝ :=
  let t : ℚ := tof i
  let note_position : ℚ := qmod t 4 / 0.25
  let note_index : ℤ := ⌊note_position⌋
  let note_time : ℚ := qmod note_position 1 * 0.25
  (insects_hihat_pattern.map (fun hit =>
    if note_index = hit.1 ∧ note_time < 0.08 then
      let fvd : ℚ × ℚ × ℚ := insects_freq_vol_decay hit.2
      let envelope : ℝ :=
        if note_time < 0.002 then (note_time : ℝ) * 500
        else Real.exp (-((note_time : ℝ) - 0.002) * (fvd.2.2 : ℝ))
      let fundamental : ℝ := sinOf (fvd.1 * t)
      let harmonic2 : ℝ := 0.4 * sinOf (fvd.1 * (13/10) * t)
      let harmonic3 : ℝ := 0.2 * sinOf (fvd.1 * (17/10) * t)
      let sizzle : ℝ := 0.1 * sinOf (fvd.1 * (21/10) * t)
      (fundamental + harmonic2 + harmonic3 + sizzle) * envelope * (fvd.2.1 : ℝ)
    else 0)).sum * 0.09

/-- Sample i of _create_background_drone (the sun texture is this with
frequency 200, sine, harmonics=true): carrier wave plus optional 1.5x and 2x
harmonics, slow 0.5 Hz modulation, gain 0.15. -/
noncomputable def background_drone_sample (frequency : ℚ) (wave_type : String)
    (harmonics : Bool) (i : ℕ) : ℝ :=
  let t : ℚ := tof i
  let wave : ℝ :=
    if wave_type = "sine" then
      sinOf (frequency * t) +
        (if harmonics then 0.3 * sinOf (frequency * (3/2) * t) + 0.2 * sinOf (frequency * 2 * t)
         else 0)
    else if wave_type = "triangle" then 2 * Real.arcsin (sinOf (frequency * t)) / Real.pi
    else sinOf (frequency * t)
  let modulation : ℝ := 1 + 0.1 * sinOf (0.5 * t)
  wave * modulation * 0.15

/-- Frames of a melodic on tone: int(0.7 * 22050) = 15435 (exact rationals). -/
def melodic_frames : ℕ := (⌊(0.7 : ℚ) * 22050⌋).toNat

/-- Frames of a melodic off tone: int(0.3 * 22050) = 6615 (exact rationals). -/
def melodic_off_frames : ℕ := (⌊(0.3 : ℚ) * 22050⌋).toNat

/-- Waveform and exponential decay rate chosen by _create_melodic_tone for a
timbre: the pair is (wave at sample time t for frequency f, decay rate). -/
noncomputable def melodic_wave_decay (frequency : ℚ) (timbre : String) (t : ℚ) : ℝ × ℚ :=
  if timbre = "bell" then
    (sinOf (frequency * t) + 0.3 * sinOf (frequency * 2 * t) + 0.1 * sinOf (frequency * 3 * t), 1.8)
  else if timbre = "soft" then (sinOf (frequency * t), 1.2)
  else if timbre = "bright" then
    (sinOf (frequency * t) + 0.2 * sinOf (frequency * (3/2) * t), 1.4)
  else if timbre = "sparkle" then
    (sinOf (frequency * t) + 0.4 * sinOf (frequency * (5/2) * t) + 0.2 * sinOf (frequency * 4 * t), 1.6)
  else (sinOf (frequency * t), 1.3)

/-- Sample i of _create_melodic_tone: 20 ms linear attack, timbre-specific
wave and decay, linear fade-out over the final 0.1 s of the 0.7 s duration,
gain 0.28. -/
noncomputable def melodic_tone_sample (frequency : ℚ) (timbre : String) (i : ℕ) : ℝ :=
  let t : ℚ := tof i
  let attack_env : ℝ := if t < 0.02 then (t : ℝ) / 0.02 else 1
  let wd := melodic_wave_decay frequency timbre t
  let decay_env : ℝ := Real.exp (-(t : ℝ) * (wd.2 : ℝ))
  let fade_out_env : ℝ := if t > 0.7 - 0.1 then ((0.7 : ℝ) - (t : ℝ)) / 0.1 else 1
  wd.1 * (attack_env * decay_env * fade_out_env) * 0.28

/-- Waveform and decay rate chosen by _create_melodic_tone_off for a timbre,
at the already-detuned off frequency. -/
noncomputable def melodic_off_wave_decay (off_frequency : ℚ) (timbre : String) (t : ℚ) : ℝ × ℚ :=
  if timbre = "bell" then
    (sinOf (off_frequency * t) + 0.15 * sinOf (off_frequency * 2 * t), 3.5)
  else if timbre = "soft" then (sinOf (off_frequency * t), 3.0)
  else if timbre = "bright" then
    (sinOf (off_frequency * t) + 0.1 * sinOf (off_frequency * (3/2) * t), 3.2)
  else if timbre = "sparkle" then
    (sinOf (off_frequency * t) + 0.2 * sinOf (off_frequency * (5/2) * t)
      + 0.1 * sinOf (off_frequency * 4 * t), 3.8)
  else (sinOf (off_frequency * t), 3.0)

/-- Sample i of _create_melodic_tone_off: frequency detuned by 0.85, 10 ms
attack, faster decay, linear fade-out over the final 0.05 s of the 0.3 s
duration, gain 0.18. -/
noncomputable def melodic_tone_off_sample (frequency : ℚ) (timbre : String) (i : ℕ) : ℝ :=
  let t : ℚ := tof i
  let off_frequency : ℚ := frequency * 0.85
  let attack_env : ℝ := if t < 0.01 then (t : ℝ) / 0.01 else 1
  let wd := melodic_off_wave_decay off_frequency timbre t
  let decay_env : ℝ := Real.exp (-(t : ℝ) * (wd.2 : ℝ))
  let fade_out_env : ℝ := if t > 0.3 - 0.05 then ((0.3 : ℝ) - (t : ℝ)) / 0.05 else 1
  wd.1 * (attack_env * decay_env * fade_out_env) * 0.18

end NatureSounds

namespace MusicalGarden

/-- Catalog order of the eight background (big pad) sound names, as listed in
_build_note_mapping and tested by is_big_pad_note. -/
def big_pad_sounds : List String :=
  ["earth", "rain", "wind", "thunder", "trees", "birds", "insects", "sun"]

/-- Name given to the melodic sound at (0-based) index i, shared by the
catalog generation loop and both mapping builders: row i // 4 selects the
seed / sprout / bud / flower prefix and the suffix is i + 1. -/
def melodic_sound_name (i : ℕ) : String :=
  if i / 4 = 0 then "seed_" ++ toString (i + 1)
  else if i / 4 = 1 then "sprout_" ++ toString (i + 1)
  else if i / 4 = 2 then "bud_" ++ toString (i + 1)
  else "flower_" ++ toString (i + 1)

/-- Keys of self.nature_sounds.sounds: the eight textures plus an on and an
off buffer for each of the sixteen melodic indices. -/
def sound_catalog : List String :=
  big_pad_sounds ++
    (List.range 16).flatMap (fun i => [melodic_sound_name i, melodic_sound_name i ++ "_off"])

/-- One entry of a mapping-file group: its midi_type tag and midi_note
number (the only fields _build_note_mapping reads). -/
structure MappingEntry where
  midi_type : String
  midi_note : ℕ
deriving DecidableEq

/-- The groups of a parsed mapping file that _build_note_mapping consumes;
either group may be absent. -/
structure MidiMappings where
  big_pads : Option (List MappingEntry)
  numbers : Option (List MappingEntry)

/-- Dictionary assignment d[k] = v on a note-to-sound table. -/
def assign (m : ℕ → Option String) (k : ℕ) (v : String) : ℕ → Option String :=
  fun n => if n = k then some v else m n

/-- Sequence of dictionary assignments, leftmost first (later ones win). -/
def assign_list (ps : List (ℕ × String)) (m : ℕ → Option String) : ℕ → Option String :=
  ps.foldl (fun acc p => assign acc p.1 p.2) m

/-- Note numbers of the note_on entries of the big_pads group, in file
order (the order the loop of _build_note_mapping visits them). -/
def big_on_events (big_pads : List MappingEntry) : List ℕ :=
  (big_pads.filter (fun pad => pad.midi_type = "note_on")).map (fun pad => pad.midi_note)

/-- Distinct note numbers of the note_on entries of the numbers group in
ascending order: the dict keyed by note deduplicates, then sorted() sorts. -/
def melodic_sorted_notes (numbers : List MappingEntry) : List ℕ :=
  (((numbers.filter (fun num => num.midi_type = "note_on")).map
      (fun num => num.midi_note)).dedup).insertionSort (· ≤ ·)

/-- Note-to-sound table built by _build_note_mapping from a parsed file:
big-pad note_on notes get the background sounds in file order (the zip stops
at eight sounds, as the loop's bound check does), then the sorted melodic
notes get the melodic names in ascending-index order. -/
def build_note_mapping (mm : MidiMappings) : ℕ → Option String :=
  let with_big : ℕ → Option String :=
    match mm.big_pads with
    | some big_pads => assign_list ((big_on_events big_pads).zip big_pad_sounds) (fun _ => none)
    | none => fun _ => none
  match mm.numbers with
  | some numbers =>
      assign_list
        (((melodic_sorted_notes numbers).enum).map
          (fun p => (p.2, melodic_sound_name p.1))) with_big
  | none => with_big

/-- Note-to-sound table built by _build_default_mapping: the literal dict of
eight background notes, then notes 51 + i for the sixteen melodic indices. -/
def build_default_mapping : ℕ → Option String :=
  assign_list ((List.range 16).map (fun i => (51 + i, melodic_sound_name i)))
    (assign_list
      [(36, "earth"), (38, "rain"), (42, "wind"), (46, "thunder"),
       (50, "trees"), (47, "birds"), (43, "insects"), (49, "sun")]
      (fun _ => none))

/-- What opening and parsing setup/sparkle_mapping.json can yield: the file is
absent, present but not valid JSON, or parsed into groups. -/
inductive MappingFile where
  | missing
  | malformed
  | parsed (mm : MidiMappings)

/-- load_midi_mappings: only FileNotFoundError is caught (falling back to the
default table); a present but malformed file makes json.load raise
json.JSONDecodeError, which no handler catches, modelled as Except.error. -/
def load_midi_mappings : MappingFile → Except String (ℕ → Option String)
  | .missing => .ok build_default_mapping
  | .malformed => .error "json.decoder.JSONDecodeError"
  | .parsed mm => .ok (build_note_mapping mm)

/-- Mutable session state of MusicalGarden that the event handlers touch:
the knob values, the per-note toggle dict (absent defaults to False via
.get(note, False), so it is a total Boolean map) and which notes currently
hold a looping channel in active_sounds. -/
structure GardenState where
  master_volume : ℚ
  temperature : ℚ
  water : ℚ
  time_of_day : ℚ
  seasons : ℚ
  pad_states : ℕ → Bool
  active_sounds : ℕ → Bool

/-- Initial state set in MusicalGarden.__init__. -/
def initial_state : GardenState :=
  { master_volume := 0.5, temperature := 0.5, water := 0.3, time_of_day := 0.5,
    seasons := 0.5, pad_states := fun _ => false, active_sounds := fun _ => false }

/-- Commands the handlers issue to the pygame mixer: stopping the previous
channel of a note, playing a named buffer at a volume (looping or one-shot),
or fading a note's channel out over some milliseconds. -/
inductive Action where
  | stop (note : ℕ)
  | play (sound : String) (volume : ℚ) (loops : Bool)
  | fadeout (note : ℕ) (ms : ℕ)
deriving DecidableEq

/-- Velocity-derived gain of turn_pad_on: 0.1 + (velocity / 127.0) * 0.7. -/
def velocity_volume (velocity : ℕ) : ℚ := 0.1 + ((velocity : ℚ) / 127) * 0.7

/-- is_big_pad_note: the note resolves to one of the eight background
sound names. -/
def is_big_pad_note (note_to_sound : ℕ → Option String) (note : ℕ) : Bool :=
  match note_to_sound note with
  | some sound_name => sound_name ∈ big_pad_sounds
  | none => false

/-- turn_pad_on: resolve the note (return if unmapped), stop any channel
recorded for it, then if find_channel() yields a channel (the chan input) set
volume to velocity_volume * master_volume and either loop the texture and
record channel and state (big pad) or one-shot the tone recording only the
toggle state (melodic). -/
def turn_pad_on (nts : ℕ → Option String) (g : GardenState) (note velocity : ℕ)
    (chan : Bool) : GardenState × List Action :=
  match nts note with
  | none => (g, [])
  | some sound_name =>
    let stop_acts : List Action := if g.active_sounds note then [.stop note] else []
    if chan then
      let final_volume : ℚ := velocity_volume velocity * g.master_volume
      if is_big_pad_note nts note then
        ({ g with
            active_sounds := fun n => if n = note then true else g.active_sounds n,
            pad_states := fun n => if n = note then true else g.pad_states n },
         stop_acts ++ [.play sound_name final_volume true])
      else
        ({ g with pad_states := fun n => if n = note then true else g.pad_states n },
         stop_acts ++ [.play sound_name final_volume false])
    else (g, stop_acts)

/-- turn_pad_off: big pads fade out and drop their recorded channel; melodic
notes play the off buffer at 0.4 * master_volume when it exists and a channel
is free; either way the pad state is recorded as False. -/
def turn_pad_off (nts : ℕ → Option String) (g : GardenState) (note : ℕ)
    (chan : Bool) : GardenState × List Action :=
  let sound_name := nts note
  if is_big_pad_note nts note then
    let step : GardenState × List Action :=
      if g.active_sounds note then
        ({ g with active_sounds := fun n => if n = note then false else g.active_sounds n },
         [Action.fadeout note 300])
      else (g, [])
    ({ step.1 with pad_states := fun n => if n = note then false else step.1.pad_states n },
     step.2)
  else
    let acts : List Action :=
      match sound_name with
      | some s =>
          if (s ++ "_off") ∈ sound_catalog then
            (if chan then [Action.play (s ++ "_off") (0.4 * g.master_volume) false] else [])
          else []
      | none => []
    ({ g with pad_states := fun n => if n = note then false else g.pad_states n }, acts)

/-- handle_note_toggle: unmapped notes and names outside the catalog are
ignored; otherwise the recorded state (default False) picks between
turn_pad_off and turn_pad_on. -/
def handle_note_toggle (nts : ℕ → Option String) (g : GardenState) (note velocity : ℕ)
    (chan : Bool) : GardenState × List Action :=
  match nts note with
  | none => (g, [])
  | some sound_name =>
    if sound_name ∈ sound_catalog then
      if g.pad_states note then turn_pad_off nts g note chan
      else turn_pad_on nts g note velocity chan
    else (g, [])

/-- Incoming MIDI messages as the handlers see them. -/
inductive MidiMsg where
  | note_on (note velocity : ℕ)
  | note_off (note : ℕ)
  | control_change (control value : ℕ)

/-- handle_control_change: the recognized control numbers set their knob to
value / 127.0 (volume side effects on already-playing sounds mutate no
GardenState field). -/
def handle_control_change (g : GardenState) (control value : ℕ) : GardenState :=
  let normalized_value : ℚ := (value : ℚ) / 127
  if control = 10 then { g with master_volume := normalized_value }
  else if control = 16 then { g with temperature := normalized_value }
  else if control = 17 then { g with water := normalized_value }
  else if control = 18 then { g with time_of_day := normalized_value }
  else if control = 7 then { g with seasons := normalized_value }
  else g

/-- process_midi_message: note_on with positive velocity toggles with that
velocity; note_off, or note_on with velocity 0, toggles with the fixed
default velocity 64; control_change updates a knob. -/
def process_midi_message (nts : ℕ → Option String) (g : GardenState) (msg : MidiMsg)
    (chan : Bool) : GardenState × List Action :=
  match msg with
  | .note_on note velocity =>
      if velocity > 0 then handle_note_toggle nts g note velocity chan
      else handle_note_toggle nts g note 64 chan
  | .note_off note => handle_note_toggle nts g note 64 chan
  | .control_change control value => (handle_control_change g control value, [])

/-- Brightness factor of _apply_environmental_effects_to_sound:
time_volume_modifier = 0.6 + time_of_day * 0.4. -/
def time_volume_modifier (time_of_day : ℚ) : ℚ := 0.6 + time_of_day * 0.4

/-- Modelled from the spec: the gain the spec claims a background pad gets on
its transition to ON, velocity-derived-gain x master-volume x
background-mix-volume x brightness-modifier(time-of-day); the code has no
background-mix knob, so that factor is a free parameter here. This definition
exists to be compared with what turn_pad_on actually emits. -/
def spec_on_gain (velocity : ℕ) (master background_mix time_of_day : ℚ) : ℚ :=
  velocity_volume velocity * master * background_mix * time_volume_modifier time_of_day

/-- Volumes of the play commands in an action list, in order. -/
def play_volumes (acts : List Action) : List ℚ :=
  acts.filterMap (fun a => match a with | .play _ v _ => some v | _ => none)

/-- Whether an action list contains a play command. -/
def has_play (acts : List Action) : Bool :=
  acts.any (fun a => match a with | .play _ _ _ => true | _ => false)

/-- A note is mapped for toggling: it resolves to a sound name that the
catalog contains (the guard of handle_note_toggle). -/
def mapped_note (nts : ℕ → Option String) (note : ℕ) : Bool :=
  match nts note with
  | some sound_name => sound_name ∈ sound_catalog
  | none => false

/-- Repeated qualifying toggle events for one note, each with its own
velocity and a channel always available. -/
def toggle_iter (nts : ℕ → Option String) (g : GardenState) (note : ℕ)
    (vel : ℕ → ℕ) : ℕ → GardenState
  | 0 => g
  | k + 1 => (handle_note_toggle nts (toggle_iter nts g note vel k) note (vel k) true).1

end MusicalGarden

/-! Helper lemmas shared by the claim theorems. -/

theorem abs_sinOf_le_one (x : ℚ) : |sinOf x| ≤ 1 :=
  abs_le.mpr ⟨Real.neg_one_le_sin _, Real.sin_le_one _⟩

theorem abs_scaled_sinOf_le {c : ℝ} (x : ℚ) (hc : 0 ≤ c) : |c * sinOf x| ≤ c := by
  rw [abs_mul, abs_of_nonneg hc]
  calc c * |sinOf x| ≤ c * 1 := by
        exact mul_le_mul_of_nonneg_left (abs_sinOf_le_one x) hc
    _ = c := mul_one c

theorem abs_mul_le_of_le {a b A B : ℝ} (ha : |a| ≤ A) (hb : |b| ≤ B) : |a * b| ≤ A * B := by
  rw [abs_mul]
  exact mul_le_mul ha hb (abs_nonneg _) ((abs_nonneg a).trans ha)

theorem abs_add_le_of_le {a b A B : ℝ} (ha : |a| ≤ A) (hb : |b| ≤ B) : |a + b| ≤ A + B :=
  (abs_add a b).trans (add_le_add ha hb)

theorem sinOf_add_int (x : ℚ) (n : ℤ) : sinOf (x + n) = sinOf x := by
  unfold sinOf
  push_cast
  rw [show 2 * Real.pi * ((x : ℝ) + (n : ℝ)) = 2 * Real.pi * (x : ℝ) + (n : ℝ) * (2 * Real.pi) by
    ring]
  exact Real.sin_add_int_mul_two_pi _ n

theorem sinOf_neg (x : ℚ) : sinOf (-x) = -sinOf x := by
  unfold sinOf
  push_cast
  rw [mul_neg, Real.sin_neg]

theorem sinOf_pos {x : ℚ} (h0 : 0 < x) (h1 : x < 1/2) : 0 < sinOf x := by
  unfold sinOf
  have hx0 : (0 : ℝ) < (x : ℝ) := by exact_mod_cast h0
  have hx1 : (x : ℝ) < 1/2 := by
    rw [show (1 : ℝ)/2 = ((1/2 : ℚ) : ℝ) by norm_num]
    exact_mod_cast h1
  refine Real.sin_pos_of_pos_of_lt_pi (by positivity) ?_
  nlinarith [Real.pi_pos]

theorem exp_le_one_of_nonpos {x : ℝ} (h : x ≤ 0) : Real.exp x ≤ 1 :=
  Real.exp_le_one_iff.mpr h

theorem qmod_nonneg (x : ℚ) {y : ℚ} (hy : 0 < y) : 0 ≤ qmod x y := by
  unfold qmod
  have hfr : 0 ≤ Int.fract (x / y) := Int.fract_nonneg (x / y)
  have hrw : x - y * ⌊x / y⌋ = y * Int.fract (x / y) := by
    rw [Int.fract]
    field_simp
  rw [hrw]
  positivity

theorem qmod_lt (x : ℚ) {y : ℚ} (hy : 0 < y) : qmod x y < y := by
  unfold qmod
  have hfr : Int.fract (x / y) < 1 := Int.fract_lt_one (x / y)
  have hrw : x - y * ⌊x / y⌋ = y * Int.fract (x / y) := by
    rw [Int.fract]
    field_simp
  rw [hrw]
  nlinarith

theorem astype_int16_bounds {x : ℝ} (h : |x| ≤ 1) :
    -32768 ≤ astype_int16 x ∧ astype_int16 x ≤ 32767 := by
  obtain ⟨hlo, hhi⟩ := abs_le.mp h
  unfold astype_int16
  split_ifs with hx
  · constructor
    · have h1 : ((-32768 : ℤ) : ℝ) ≤ x * 32767 := by push_cast; nlinarith
      exact Int.le_floor.mpr h1
    · have h1 : x * 32767 ≤ ((32767 : ℤ) : ℝ) := by push_cast; nlinarith
      calc ⌊x * 32767⌋ ≤ ⌊((32767 : ℤ) : ℝ)⌋ := Int.floor_le_floor h1
        _ = 32767 := Int.floor_intCast _
  · constructor
    · have h1 : ((-32768 : ℤ) : ℝ) ≤ x * 32767 := by push_cast; nlinarith
      calc (-32768 : ℤ) = ⌈((-32768 : ℤ) : ℝ)⌉ := (Int.ceil_intCast _).symm
        _ ≤ ⌈x * 32767⌉ := Int.ceil_le_ceil h1
    · have h1 : x * 32767 ≤ ((32767 : ℤ) : ℝ) := by push_cast; nlinarith
      exact Int.ceil_le.mpr h1

theorem hit_sum_eq_zero {α : Type} (l : List (ℤ × α)) (f : ℤ × α → ℝ) (k : ℤ)
    (hf0 : ∀ hit ∈ l, ¬ k = hit.1 → f hit = 0) (hk : k ∉ l.map Prod.fst) :
    (l.map f).sum = 0 := by
  induction l with
  | nil => simp
  | cons hit rest ih =>
    simp only [List.map_cons, List.sum_cons]
    rw [hf0 hit (List.mem_cons_self _ _) (by
        intro hcontra
        exact hk (by simp [hcontra]))]
    rw [ih (fun h hm => hf0 h (List.mem_cons_of_mem _ hm)) (fun hm => hk (by simp [hm]))]
    ring

theorem abs_hit_sum_le {α : Type} (l : List (ℤ × α)) (f : ℤ × α → ℝ) (k : ℤ) (B : ℝ)
    (hB : 0 ≤ B) (hnd : (l.map Prod.fst).Nodup)
    (hf0 : ∀ hit ∈ l, ¬ k = hit.1 → f hit = 0)
    (hfB : ∀ hit ∈ l, |f hit| ≤ B) :
    |(l.map f).sum| ≤ B := by
  induction l with
  | nil => simpa using hB
  | cons hit rest ih =>
    simp only [List.map_cons, List.sum_cons]
    simp only [List.map_cons, List.nodup_cons] at hnd
    by_cases hk : k = hit.1
    · have hrest : (rest.map f).sum = 0 := by
        refine hit_sum_eq_zero rest f k (fun h hm => hf0 h (List.mem_cons_of_mem _ hm)) ?_
        rw [hk]
        exact hnd.1
      rw [hrest, add_zero]
      exact hfB hit (List.mem_cons_self _ _)
    · rw [hf0 hit (List.mem_cons_self _ _) hk, zero_add]
      exact ih hnd.2 (fun h hm => hf0 h (List.mem_cons_of_mem _ hm))
        (fun h hm => hfB h (List.mem_cons_of_mem _ hm))

namespace MusicalGarden

theorem assign_list_not_mem (ps : List (ℕ × String)) (m : ℕ → Option String) (n : ℕ)
    (h : n ∉ ps.map Prod.fst) : assign_list ps m n = m n := by
  induction ps generalizing m with
  | nil => rfl
  | cons p rest ih =>
    have hn : n ≠ p.1 := by
      intro hcontra
      exact h (by simp [hcontra])
    show assign_list rest (assign m p.1 p.2) n = m n
    rw [ih (assign m p.1 p.2) (fun hm => h (by simp [hm]))]
    simp [assign, hn]

theorem assign_list_mem (ps : List (ℕ × String)) (m : ℕ → Option String) (n : ℕ) (s : String)
    (hnd : (ps.map Prod.fst).Nodup) (hmem : (n, s) ∈ ps) : assign_list ps m n = some s := by
  induction ps generalizing m with
  | nil => cases hmem
  | cons p rest ih =>
    simp only [List.map_cons, List.nodup_cons] at hnd
    rcases List.mem_cons.mp hmem with hp | hrest
    · have hn : n = p.1 := by rw [← hp]
      have hs : s = p.2 := by rw [← hp]
      show assign_list rest (assign m p.1 p.2) n = some s
      rw [assign_list_not_mem rest _ n (by rw [hn]; exact hnd.1)]
      simp [assign, hn, hs]
    · exact ih (assign m p.1 p.2) hnd.2 hrest

theorem mapped_note_elim {nts : ℕ → Option String} {note : ℕ}
    (h : mapped_note nts note = true) :
    ∃ s, nts note = some s ∧ s ∈ sound_catalog := by
  unfold mapped_note at h
  cases hnts : nts note with
  | none => rw [hnts] at h; cases h
  | some s =>
    rw [hnts] at h
    exact ⟨s, rfl, by simpa using h⟩

theorem handle_note_toggle_flip (nts : ℕ → Option String) (g : GardenState)
    (note v : ℕ) (hmap : mapped_note nts note = true) :
    (g.pad_states note = false →
      (handle_note_toggle nts g note v true).1.pad_states note = true ∧
      has_play (handle_note_toggle nts g note v true).2 = true) ∧
    (g.pad_states note = true →
      (handle_note_toggle nts g note v true).1.pad_states note = false) := by
  obtain ⟨s, hnts, hs⟩ := mapped_note_elim hmap
  constructor
  · intro hoff
    by_cases hbig : is_big_pad_note nts note
    · simp [handle_note_toggle, hnts, hs, hoff, turn_pad_on, hbig, has_play]
    · simp [handle_note_toggle, hnts, hs, hoff, turn_pad_on, hbig, has_play]
  · intro hon
    by_cases hbig : is_big_pad_note nts note
    · by_cases hact : g.active_sounds note
      · simp [handle_note_toggle, hnts, hs, hon, turn_pad_off, hbig, hact]
      · simp [handle_note_toggle, hnts, hs, hon, turn_pad_off, hbig, hact]
    · simp [handle_note_toggle, hnts, hs, hon, turn_pad_off, hbig]

/-- C3: every qualifying event for a mapped identifier is a strict state
flip (given a free mixer channel): when the recorded pad state is OFF or
absent the event moves it to ON and a play command is issued; when it is ON
the event moves it to OFF and issues the stop (big-pad fadeout) or alternate
(melodic off-buffer) behavior; and a note-off is processed exactly like a
note-on with zero velocity, so press and release are never distinguished. -/
theorem toggle_strict_flip :
    ∀ (nts : ℕ → Option String) (g : GardenState) (note velocity : ℕ),
      mapped_note nts note = true →
      (g.pad_states note = false →
        (process_midi_message nts g (.note_on note velocity) true).1.pad_states note = true ∧
        has_play (process_midi_message nts g (.note_on note velocity) true).2 = true) ∧
      (g.pad_states note = true →
        (process_midi_message nts g (.note_on note velocity) true).1.pad_states note = false) ∧
      (g.pad_states note = true → is_big_pad_note nts note = true →
        g.active_sounds note = true →
        (process_midi_message nts g (.note_on note velocity) true).2 =
          [Action.fadeout note 300]) ∧
      (∀ chan, process_midi_message nts g (.note_off note) chan =
        process_midi_message nts g (.note_on note 0) chan) := by
  intro nts g note velocity hmap
  obtain ⟨s, hnts, hs⟩ := mapped_note_elim hmap
  have hdispatch : process_midi_message nts g (.note_on note velocity) true =
      handle_note_toggle nts g note (if velocity > 0 then velocity else 64) true := by
    by_cases hv : velocity > 0
    · simp [process_midi_message, hv]
    · simp [process_midi_message, hv]
  refine ⟨?_, ?_, ?_, ?_⟩
  · intro hoff
    rw [hdispatch]
    exact (handle_note_toggle_flip nts g note _ hmap).1 hoff
  · intro hon
    rw [hdispatch]
    exact (handle_note_toggle_flip nts g note _ hmap).2 hon
  · intro hon hbig hact
    rw [hdispatch]
    simp [handle_note_toggle, hnts, hs, hon, turn_pad_off, hbig, hact]
  · intro chan
    simp [process_midi_message]

/-- Concrete run of toggle_strict_flip: note 36 (earth) of the default
mapping, pressed from the initial state. -/
theorem toggle_strict_flip_witness :
    mapped_note build_default_mapping 36 = true ∧
    initial_state.pad_states 36 = false ∧
    (process_midi_message build_default_mapping initial_state (.note_on 36 100) true).1.pad_states 36
      = true ∧
    has_play (process_midi_message build_default_mapping initial_state (.note_on 36 100) true).2
      = true := by
  refine ⟨by decide, rfl, ?_⟩
  have h := (toggle_strict_flip build_default_mapping initial_state 36 100 (by decide)).1 rfl
  exact h

theorem turn_pad_off_state (nts : ℕ → Option String) (g : GardenState) (note : ℕ)
    (chan : Bool) :
    (turn_pad_off nts g note chan).1.pad_states note = false ∧
    (turn_pad_off nts g note chan).1.active_sounds note =
      (!(is_big_pad_note nts note) && g.active_sounds note) := by
  by_cases hbig : is_big_pad_note nts note
  · by_cases hact : g.active_sounds note <;> simp [turn_pad_off, hbig, hact]
  · simp [turn_pad_off, hbig]

theorem turn_pad_on_state (nts : ℕ → Option String) (g : GardenState) (note v : ℕ)
    (s : String) (hnts : nts note = some s) :
    (turn_pad_on nts g note v true).1.pad_states note = true ∧
    (turn_pad_on nts g note v true).1.active_sounds note =
      (is_big_pad_note nts note || g.active_sounds note) := by
  by_cases hbig : is_big_pad_note nts note <;> simp [turn_pad_on, hnts, hbig]

theorem handle_note_toggle_eq {nts : ℕ → Option String} {note : ℕ} {s : String}
    (g : GardenState) (v : ℕ) (chan : Bool)
    (hnts : nts note = some s) (hs : s ∈ sound_catalog) :
    handle_note_toggle nts g note v chan =
      if g.pad_states note then turn_pad_off nts g note chan
      else turn_pad_on nts g note v chan := by
  simp [handle_note_toggle, hnts, hs]

theorem toggle_twice (nts : ℕ → Option String) (g : GardenState) (note v1 v2 : ℕ)
    (hmap : mapped_note nts note = true)
    (hoff : g.pad_states note = false) (hact : g.active_sounds note = false) :
    (handle_note_toggle nts (handle_note_toggle nts g note v1 true).1 note v2 true).1.pad_states
        note = false ∧
    (handle_note_toggle nts (handle_note_toggle nts g note v1 true).1 note v2 true).1.active_sounds
        note = false := by
  obtain ⟨s, hnts, hs⟩ := mapped_note_elim hmap
  have e1 : handle_note_toggle nts g note v1 true = turn_pad_on nts g note v1 true := by
    rw [handle_note_toggle_eq g v1 true hnts hs, hoff]
    simp
  obtain ⟨h1p, h1a⟩ := turn_pad_on_state nts g note v1 s hnts
  rw [e1, handle_note_toggle_eq _ v2 true hnts hs, h1p, if_pos rfl]
  obtain ⟨h2p, h2a⟩ := turn_pad_off_state nts (turn_pad_on nts g note v1 true).1 note true
  refine ⟨h2p, ?_⟩
  rw [h2a, h1a, hact]
  by_cases hbig : is_big_pad_note nts note <;> simp [hbig]

/-- C7: from the initial OFF/absent state of a mapped identifier, an even
number of qualifying toggle events (channels available, any velocities)
leaves its pad state OFF and leaves no channel handle recorded for it. -/
theorem even_toggles_return_to_off :
    ∀ (nts : ℕ → Option String) (g : GardenState) (note : ℕ) (vel : ℕ → ℕ) (k : ℕ),
      mapped_note nts note = true →
      g.pad_states note = false → g.active_sounds note = false →
      (toggle_iter nts g note vel (2 * k)).pad_states note = false ∧
      (toggle_iter nts g note vel (2 * k)).active_sounds note = false := by
  intro nts g note vel k hmap
  induction k with
  | zero => intro hoff hact; exact ⟨hoff, hact⟩
  | succ k ih =>
    intro hoff hact
    have hrw : 2 * (k + 1) = 2 * k + 1 + 1 := by ring
    rw [hrw]
    have hstep := toggle_twice nts (toggle_iter nts g note vel (2 * k)) note
      (vel (2 * k)) (vel (2 * k + 1)) hmap (ih hoff hact).1 (ih hoff hact).2
    simpa [toggle_iter] using hstep

/-- Concrete run of even_toggles_return_to_off: two presses of note 36 from
the initial state end with the pad OFF and no recorded channel. -/
theorem even_toggles_return_to_off_witness :
    mapped_note build_default_mapping 36 = true ∧
    (toggle_iter build_default_mapping initial_state 36 (fun _ => 100) 2).pad_states 36 = false ∧
    (toggle_iter build_default_mapping initial_state 36 (fun _ => 100) 2).active_sounds 36
      = false := by
  refine ⟨by decide, ?_⟩
  have h := even_toggles_return_to_off build_default_mapping initial_state 36
    (fun _ => 100) 1 (by decide) rfl rfl
  simpa using h

/-- C10: note-off events, and note-on events with zero velocity, are both
forwarded to the toggle handler with the fixed default velocity 64, so when
such an event turns a pad ON its play command carries the gain computed from
velocity 64, namely (0.1 + (64/127) * 0.7) * master_volume. -/
theorem deactivate_events_use_velocity_64 :
    ∀ (nts : ℕ → Option String) (g : GardenState) (note : ℕ) (chan : Bool),
      process_midi_message nts g (.note_off note) chan =
        handle_note_toggle nts g note 64 chan ∧
      process_midi_message nts g (.note_on note 0) chan =
        handle_note_toggle nts g note 64 chan ∧
      (mapped_note nts note = true → g.pad_states note = false →
        play_volumes (process_midi_message nts g (.note_off note) true).2 =
          [(0.1 + (64 / 127) * 0.7) * g.master_volume]) := by
  intro nts g note chan
  refine ⟨rfl, by simp [process_midi_message], ?_⟩
  intro hmap hoff
  obtain ⟨s, hnts, hs⟩ := mapped_note_elim hmap
  have hvol : velocity_volume 64 = 0.1 + (64 / 127) * 0.7 := by
    norm_num [velocity_volume]
  by_cases hbig : is_big_pad_note nts note
  · by_cases hact : g.active_sounds note
    · simp [process_midi_message, handle_note_toggle, hnts, hs, hoff, turn_pad_on, hbig, hact,
        play_volumes, hvol]
    · simp [process_midi_message, handle_note_toggle, hnts, hs, hoff, turn_pad_on, hbig, hact,
        play_volumes, hvol]
  · by_cases hact : g.active_sounds note
    · simp [process_midi_message, handle_note_toggle, hnts, hs, hoff, turn_pad_on, hbig, hact,
        play_volumes, hvol]
    · simp [process_midi_message, handle_note_toggle, hnts, hs, hoff, turn_pad_on, hbig, hact,
        play_volumes, hvol]

/-- Concrete run of deactivate_events_use_velocity_64: a note-off for pad 36
from the initial state (master volume 0.5) plays at gain 0.3 = velocity-64
gain times 0.5. -/
theorem deactivate_events_use_velocity_64_witness :
    mapped_note build_default_mapping 36 = true ∧
    initial_state.pad_states 36 = false ∧
    play_volumes
      (process_midi_message build_default_mapping initial_state (.note_off 36) true).2 =
      [(0.1 + (64 / 127) * 0.7) * initial_state.master_volume] := by
  refine ⟨by decide, rfl, ?_⟩
  exact (deactivate_events_use_velocity_64 build_default_mapping initial_state 36 true).2.2
    (by decide) rfl

/-- C5 counterexample: no background-mix factor can make the spec's gain
formula match turn_pad_on, because the play volume the code computes for a
background pad is independent of the time-of-day knob while the claimed
product velocity-gain x master x background-mix x brightness(time-of-day)
is not: tested at note 36, velocity 127, master volume 1. -/
theorem turn_pad_on_gain_ignores_brightness :
    ¬ ∃ background_mix : ℚ, ∀ time_of_day : ℚ, 0 ≤ time_of_day → time_of_day ≤ 1 →
      play_volumes (turn_pad_on build_default_mapping
          { initial_state with master_volume := 1, time_of_day := time_of_day }
          36 127 true).2 =
        [spec_on_gain 127 1 background_mix time_of_day] := by
  rintro ⟨bg, h⟩
  have hnts : build_default_mapping 36 = some "earth" := by decide
  have hbig : is_big_pad_note build_default_mapping 36 = true := by decide
  have h0 := h 0 le_rfl (by norm_num)
  have h1 := h 1 (by norm_num) le_rfl
  simp only [turn_pad_on, hnts, hbig, play_volumes, initial_state] at h0 h1
  norm_num [spec_on_gain, velocity_volume, time_volume_modifier, List.filterMap_cons,
    List.filterMap_nil] at h0 h1
  linarith

/-- C5 amended: on a transition to ON the play command's gain is
velocity-derived-gain x master-volume only (no background-mix factor and no
time-of-day brightness factor is applied at turn-on), and the
velocity-derived gain 0.1 + (velocity/127) * 0.7 maps velocities 0..127
linearly into [0.1, 0.8]. -/
theorem turn_pad_on_gain_formula :
    ∀ (nts : ℕ → Option String) (g : GardenState) (note velocity : ℕ) (s : String),
      nts note = some s → velocity ≤ 127 →
      play_volumes (turn_pad_on nts g note velocity true).2 =
        [velocity_volume velocity * g.master_volume] ∧
      0.1 ≤ velocity_volume velocity ∧ velocity_volume velocity ≤ 0.8 := by
  intro nts g note velocity s hnts hv
  have hv' : (velocity : ℚ) ≤ 127 := by exact_mod_cast hv
  have hv0 : (0 : ℚ) ≤ (velocity : ℚ) := by positivity
  refine ⟨?_, ?_, ?_⟩
  · by_cases hbig : is_big_pad_note nts note <;> by_cases hact : g.active_sounds note <;>
      simp [turn_pad_on, hnts, hbig, hact, play_volumes]
  · unfold velocity_volume
    nlinarith
  · unfold velocity_volume
    nlinarith

/-- Concrete run of turn_pad_on_gain_formula: pad 36 at velocity 100. -/
theorem turn_pad_on_gain_formula_witness :
    build_default_mapping 36 = some "earth" ∧ 100 ≤ 127 ∧
    play_volumes (turn_pad_on build_default_mapping initial_state 36 100 true).2 =
      [velocity_volume 100 * initial_state.master_volume] ∧
    0.1 ≤ velocity_volume 100 ∧ velocity_volume 100 ≤ 0.8 := by
  have h := turn_pad_on_gain_formula build_default_mapping initial_state 36 100 "earth"
    (by decide) (by norm_num)
  exact ⟨by decide, by norm_num, h.1, h.2.1, h.2.2⟩

theorem map_fst_zip_sublist (a : List ℕ) (b : List String) :
    ((a.zip b).map Prod.fst).Sublist a := by
  induction a generalizing b with
  | nil => simp
  | cons x xs ih =>
    cases b with
    | nil => simp
    | cons y ys => simpa using (ih ys).cons₂ x

/-- C6: deriving the table from a loaded mapping file assigns big-pad
note-on identifiers to the eight background sounds in file order (as long as
they are distinct and not overridden by a melodic identifier), while melodic
note-on identifiers are sorted ascending and the i-th one receives the
melodic name of index i, whose prefix tier is i / 4 — i.e. four contiguous
ascending groups of four map to the four register/timbre tiers in order. -/
theorem build_note_mapping_ordering :
    ∀ (mm : MidiMappings) (big_pads numbers : List MappingEntry),
      mm.big_pads = some big_pads → mm.numbers = some numbers →
      (big_on_events big_pads).Nodup →
      (∀ note s, (note, s) ∈ (big_on_events big_pads).zip big_pad_sounds →
        note ∉ melodic_sorted_notes numbers →
        build_note_mapping mm note = some s) ∧
      (∀ i note, (i, note) ∈ (melodic_sorted_notes numbers).enum →
        build_note_mapping mm note = some (melodic_sound_name i)) ∧
      (melodic_sorted_notes numbers).Sorted (· ≤ ·) := by
  intro mm big_pads numbers hbp hnums hnd
  have hbuild : build_note_mapping mm =
      assign_list (((melodic_sorted_notes numbers).enum).map
        (fun p => (p.2, melodic_sound_name p.1)))
        (assign_list ((big_on_events big_pads).zip big_pad_sounds) (fun _ => none)) := by
    simp [build_note_mapping, hbp, hnums]
  have hsnodup : (melodic_sorted_notes numbers).Nodup := by
    unfold melodic_sorted_notes
    exact (List.perm_insertionSort _ _).symm.nodup (List.nodup_dedup _)
  have hkeys : (((melodic_sorted_notes numbers).enum).map
      (fun p => (p.2, melodic_sound_name p.1))).map Prod.fst =
      melodic_sorted_notes numbers := by
    rw [List.map_map]
    exact List.enum_map_snd _
  refine ⟨?_, ?_, ?_⟩
  · intro note s hzip hnot
    rw [hbuild, assign_list_not_mem _ _ note (by rw [hkeys]; exact hnot)]
    exact assign_list_mem _ _ note s
      ((hnd.sublist (map_fst_zip_sublist _ _) : ((big_on_events big_pads).zip
        big_pad_sounds).map Prod.fst |>.Nodup)) hzip
  · intro i note hmem
    rw [hbuild]
    refine assign_list_mem _ _ note (melodic_sound_name i) (by rw [hkeys]; exact hsnodup) ?_
    have := List.mem_map_of_mem (fun p : ℕ × ℕ => (p.2, melodic_sound_name p.1)) hmem
    simpa using this
  · exact List.sorted_insertionSort _ _

/-- Concrete run of build_note_mapping_ordering: big pads listed as 40, 36,
44 (so 40, not the numerically smallest 36, gets the first sound) and five
melodic notes listed out of order. -/
theorem build_note_mapping_ordering_witness :
    (big_on_events [⟨"note_on", 40⟩, ⟨"note_on", 36⟩, ⟨"note_on", 44⟩]).Nodup ∧
    build_note_mapping
      ⟨some [⟨"note_on", 40⟩, ⟨"note_on", 36⟩, ⟨"note_on", 44⟩],
       some [⟨"note_on", 64⟩, ⟨"note_on", 62⟩, ⟨"note_on", 60⟩, ⟨"note_on", 63⟩,
             ⟨"note_on", 61⟩]⟩ 40 = some "earth" ∧
    build_note_mapping
      ⟨some [⟨"note_on", 40⟩, ⟨"note_on", 36⟩, ⟨"note_on", 44⟩],
       some [⟨"note_on", 64⟩, ⟨"note_on", 62⟩, ⟨"note_on", 60⟩, ⟨"note_on", 63⟩,
             ⟨"note_on", 61⟩]⟩ 36 = some "rain" ∧
    build_note_mapping
      ⟨some [⟨"note_on", 40⟩, ⟨"note_on", 36⟩, ⟨"note_on", 44⟩],
       some [⟨"note_on", 64⟩, ⟨"note_on", 62⟩, ⟨"note_on", 60⟩, ⟨"note_on", 63⟩,
             ⟨"note_on", 61⟩]⟩ 60 = some "seed_1" ∧
    build_note_mapping
      ⟨some [⟨"note_on", 40⟩, ⟨"note_on", 36⟩, ⟨"note_on", 44⟩],
       some [⟨"note_on", 64⟩, ⟨"note_on", 62⟩, ⟨"note_on", 60⟩, ⟨"note_on", 63⟩,
             ⟨"note_on", 61⟩]⟩ 64 = some "sprout_5" := by
  have h := build_note_mapping_ordering
    ⟨some [⟨"note_on", 40⟩, ⟨"note_on", 36⟩, ⟨"note_on", 44⟩],
     some [⟨"note_on", 64⟩, ⟨"note_on", 62⟩, ⟨"note_on", 60⟩, ⟨"note_on", 63⟩,
           ⟨"note_on", 61⟩]⟩
    [⟨"note_on", 40⟩, ⟨"note_on", 36⟩, ⟨"note_on", 44⟩]
    [⟨"note_on", 64⟩, ⟨"note_on", 62⟩, ⟨"note_on", 60⟩, ⟨"note_on", 63⟩, ⟨"note_on", 61⟩]
    rfl rfl (by decide)
  exact ⟨by decide, h.1 40 "earth" (by decide) (by decide),
    h.1 36 "rain" (by decide) (by decide),
    h.2.1 0 60 (by decide), h.2.1 4 64 (by decide)⟩

/-- C8 counterexample: a present but malformed mapping file is not
recovered; json.load's decode error escapes load_midi_mappings (only
FileNotFoundError is caught), so startup mapping construction can raise. -/
theorem malformed_mapping_file_raises :
    load_midi_mappings .malformed = .error "json.decoder.JSONDecodeError" := rfl

/-- C8 amended: a missing mapping file is recovered locally by building the
built-in default table — eight background identifiers plus the sixteen
melodic identifiers 51..66 in four groups of four — but a malformed file is
not: its JSON decode error propagates. -/
theorem load_midi_mappings_fallback_behavior :
    load_midi_mappings .missing = .ok build_default_mapping ∧
    ([36, 38, 42, 46, 50, 47, 43, 49].map build_default_mapping) =
      big_pad_sounds.map some ∧
    (∀ i, i < 16 → build_default_mapping (51 + i) = some (melodic_sound_name i)) ∧
    (∃ e, load_midi_mappings .malformed = .error e) := by
  exact ⟨rfl, by decide, by decide, ⟨_, rfl⟩⟩

/-- Concrete run of load_midi_mappings_fallback_behavior: melodic index 0
of the default table is note 51, named seed_1. -/
theorem load_midi_mappings_fallback_behavior_witness :
    0 < 16 ∧ build_default_mapping (51 + 0) = some (melodic_sound_name 0) :=
  ⟨by norm_num, load_midi_mappings_fallback_behavior.2.2.1 0 (by norm_num)⟩

end MusicalGarden

namespace AudioSynthesizer

theorem clamp_frequency_idem (f : ℚ) :
    clamp_frequency (clamp_frequency f) = clamp_frequency f := by
  unfold clamp_frequency
  split_ifs <;> first | rfl | linarith

/-- C9: the tone generator is a pure function of its arguments for the sine,
triangle and sawtooth wave types — two runs with different random streams
produce identical sample sequences — while for the noise wave type every raw
waveform sample stays in [-1, 1] whenever the random draws do (the
random.uniform(-1, 1) contract), with no requirement that runs repeat. -/
theorem generate_tone_determinism_and_noise_range :
    ∀ (frequency duration : ℚ) (envelope : String) (noise1 noise2 : ℕ → ℝ) (i : ℕ),
      (∀ wave_type, wave_type ∈ (["sine", "triangle", "sawtooth"] : List String) →
        generate_tone_sample frequency duration wave_type envelope noise1 i =
          generate_tone_sample frequency duration wave_type envelope noise2 i) ∧
      ((∀ j, |noise1 j| ≤ 1) → |generate_tone_wave frequency "noise" noise1 i| ≤ 1) := by
  intro f d env n1 n2 i
  constructor
  · intro wt hwt
    simp only [List.mem_cons, List.mem_singleton, List.not_mem_nil, or_false] at hwt
    rcases hwt with h | h | h <;> subst h <;> rfl
  · intro hb
    simpa [generate_tone_wave] using hb i

/-- Concrete run of generate_tone_determinism_and_noise_range: sine at
440 Hz, sample 5, under two different random streams; and a noise draw
stream bounded by 1 keeps the raw noise sample in [-1, 1]. -/
theorem generate_tone_determinism_witness :
    ("sine" ∈ (["sine", "triangle", "sawtooth"] : List String)) ∧
    generate_tone_sample 440 1 "sine" "soft" (fun _ => 0) 5 =
      generate_tone_sample 440 1 "sine" "soft" (fun _ => 1) 5 ∧
    |generate_tone_wave 440 "noise" (fun _ => (0 : ℝ)) 5| ≤ 1 := by
  refine ⟨by decide, ?_, ?_⟩
  · exact (generate_tone_determinism_and_noise_range 440 1 "soft"
      (fun _ => 0) (fun _ => 1) 5).1 "sine" (by decide)
  · exact (generate_tone_determinism_and_noise_range 440 1 "soft"
      (fun _ => (0 : ℝ)) (fun _ => 1) 5).2 (fun j => by simp)

/-- C1 amended: the [200, 4000] Hz clamp lives only in the generic tone
generator, where it runs at the end of each loop iteration: every sample
after the first is computed from the clamped frequency (which always lies in
[200, 4000]), and the first sample, though computed from the raw argument,
has the same value the clamped frequency would give because its time offset
is 0. The NatureSounds synthesizers apply no clamp at all (see the
accompanying counterexample). -/
theorem frequency_clamp_scope :
    (∀ (frequency : ℚ) (i : ℕ),
      generate_tone_freq frequency (i + 1) = clamp_frequency frequency) ∧
    (∀ frequency : ℚ,
      200 ≤ clamp_frequency frequency ∧ clamp_frequency frequency ≤ 4000) ∧
    (∀ (frequency duration : ℚ) (wave_type envelope : String) (noise : ℕ → ℝ),
      generate_tone_sample frequency duration wave_type envelope noise 0 =
        generate_tone_sample (clamp_frequency frequency) duration wave_type envelope noise 0) := by
  refine ⟨?_, ?_, ?_⟩
  · intro f i
    induction i with
    | zero => rfl
    | succ i ih =>
      show clamp_frequency (generate_tone_freq f (i + 1)) = clamp_frequency f
      rw [ih, clamp_frequency_idem]
  · intro f
    unfold clamp_frequency
    split_ifs <;> constructor <;> linarith
  · intro f d wt env noise
    have ht : tof 0 = 0 := by norm_num [tof, sample_rate]
    simp only [generate_tone_sample, generate_tone_wave, generate_tone_env,
      generate_tone_freq, ht, mul_zero, zero_mul]

end AudioSynthesizer

namespace NatureSounds

open AudioSynthesizer (tof sample_rate clamp_frequency)

/-- C1 counterexample: the melodic-tone synthesizer uses its frequency
argument unclamped: at 100 Hz (below the 200 Hz safety bound) its sample 1
differs from the sample that the clamped frequency, 200 Hz, produces, so the
effective frequency driving the generator is not the clamped value. -/
theorem melodic_tone_not_clamped :
    melodic_tone_sample 100 "soft" 1 ≠
      melodic_tone_sample (clamp_frequency 100) "soft" 1 := by
  have hclamp : clamp_frequency 100 = 200 := by norm_num [clamp_frequency]
  rw [hclamp]
  have ht : tof 1 = 1 / 22050 := by norm_num [tof, sample_rate]
  have hlt : sinOf (2 / 441) < sinOf (4 / 441) := by
    have hx : ((2 / 441 : ℚ) : ℝ) = 2 / 441 := by push_cast; ring
    have hy : ((4 / 441 : ℚ) : ℝ) = 4 / 441 := by push_cast; ring
    unfold sinOf
    rw [hx, hy]
    have hpi := Real.pi_pos
    have hdouble : 2 * Real.pi * (4 / 441) = 2 * (2 * Real.pi * (2 / 441)) := by ring
    rw [hdouble, Real.sin_two_mul]
    have hu0 : 0 < 2 * Real.pi * (2 / 441) := by positivity
    have hupi3 : 2 * Real.pi * (2 / 441) < Real.pi / 3 := by nlinarith
    have hupi : 2 * Real.pi * (2 / 441) < Real.pi := by nlinarith
    have hsin : 0 < Real.sin (2 * Real.pi * (2 / 441)) :=
      Real.sin_pos_of_pos_of_lt_pi hu0 hupi
    have hcos : 1 / 2 < Real.cos (2 * Real.pi * (2 / 441)) := by
      have := Real.cos_lt_cos_of_nonneg_of_le_pi (le_of_lt hu0) (by linarith) hupi3
      rw [Real.cos_pi_div_three] at this
      linarith
    nlinarith
  unfold melodic_tone_sample melodic_wave_decay
  rw [ht]
  simp only [show (("soft" : String) = "bell") = False from eq_false (by decide),
    show (("soft" : String) = "soft") = True from eq_true rfl, if_false, if_true]
  norm_num
  exact ne_of_lt hlt

theorem sinOf_shift (x r : ℚ) (n : ℤ) (h : x = r + (n : ℚ)) : sinOf x = sinOf r := by
  rw [h]
  exact sinOf_add_int r n

theorem sinOf_le_one (x : ℚ) : sinOf x ≤ 1 := Real.sin_le_one _

theorem sun_drone_final_negative :
    background_drone_sample 200 "sine" true (texture_frames - 1) < 0 := by
  have hidx : texture_frames - 1 = 88199 := by norm_num [texture_frames]
  have ht : tof 88199 = 88199 / 22050 := by norm_num [tof, sample_rate]
  rw [hidx]
  simp only [background_drone_sample, ht]
  norm_num
  have e1 : sinOf (352796 / 441) = -sinOf (4 / 441) := by
    rw [sinOf_shift _ (-(4 / 441)) 800 (by push_cast; norm_num), sinOf_neg]
  have e2 : sinOf (176398 / 147) = -sinOf (2 / 147) := by
    rw [sinOf_shift _ (-(2 / 147)) 1200 (by push_cast; norm_num), sinOf_neg]
  have e3 : sinOf (705592 / 441) = -sinOf (8 / 441) := by
    rw [sinOf_shift _ (-(8 / 441)) 1600 (by push_cast; norm_num), sinOf_neg]
  have e4 : sinOf (88199 / 44100) = -sinOf (1 / 44100) := by
    rw [sinOf_shift _ (-(1 / 44100)) 2 (by push_cast; norm_num), sinOf_neg]
  rw [e1, e2, e3, e4]
  have h1 : 0 < sinOf (4 / 441) := sinOf_pos (by norm_num) (by norm_num)
  have h2 : 0 < sinOf (2 / 147) := sinOf_pos (by norm_num) (by norm_num)
  have h3 : 0 < sinOf (8 / 441) := sinOf_pos (by norm_num) (by norm_num)
  have h4 : sinOf (1 / 44100) ≤ 1 := sinOf_le_one _
  have hA : -sinOf (4 / 441) + (0.3 * -sinOf (2 / 147) + 0.2 * -sinOf (8 / 441)) < 0 := by
    nlinarith
  have hB : (0 : ℝ) < 1 + 0.1 * -sinOf (1 / 44100) := by nlinarith
  nlinarith [mul_pos (neg_pos.mpr hA) hB]

theorem rain_final_zero : rain_sample (texture_frames - 1) = 0 := by
  have hidx : texture_frames - 1 = 88199 := by norm_num [texture_frames]
  have ht : tof 88199 = 88199 / 22050 := by norm_num [tof, sample_rate]
  have hq4 : qmod (88199 / 22050 : ℚ) 4 = 88199 / 22050 := by
    unfold qmod
    rw [show ⌊(88199 / 22050 : ℚ) / 4⌋ = 0 from Int.floor_eq_iff.mpr (by norm_num)]
    norm_num
  have hfl : ⌊(88199 / 22050 : ℚ) / 0.25⌋ = 15 :=
    Int.floor_eq_iff.mpr (by norm_num)
  have hnone : rain_freq_at (15 % 16) = none := by decide
  rw [hidx]
  simp only [rain_sample, ht, hq4, hfl, hnone]
  norm_num

theorem trees_final_zero : trees_sample (texture_frames - 1) = 0 := by
  have hidx : texture_frames - 1 = 88199 := by norm_num [texture_frames]
  have ht : tof 88199 = 88199 / 22050 := by norm_num [tof, sample_rate]
  have hq4 : qmod (88199 / 22050 : ℚ) 4 = 88199 / 22050 := by
    unfold qmod
    rw [show ⌊(88199 / 22050 : ℚ) / 4⌋ = 0 from Int.floor_eq_iff.mpr (by norm_num)]
    norm_num
  have hfl : ⌊(88199 / 22050 : ℚ) / 0.25⌋ = 15 :=
    Int.floor_eq_iff.mpr (by norm_num)
  rw [hidx]
  simp only [trees_sample, trees_hit_pattern, ht, hq4, hfl]
  norm_num

theorem insects_final_zero : insects_sample (texture_frames - 1) = 0 := by
  have hidx : texture_frames - 1 = 88199 := by norm_num [texture_frames]
  have ht : tof 88199 = 88199 / 22050 := by norm_num [tof, sample_rate]
  have hq4 : qmod (88199 / 22050 : ℚ) 4 = 88199 / 22050 := by
    unfold qmod
    rw [show ⌊(88199 / 22050 : ℚ) / 4⌋ = 0 from Int.floor_eq_iff.mpr (by norm_num)]
    norm_num
  have hfl : ⌊(88199 / 22050 : ℚ) / 0.25⌋ = 15 :=
    Int.floor_eq_iff.mpr (by norm_num)
  rw [hidx]
  simp only [insects_sample, insects_hihat_pattern, ht, hq4, hfl]
  norm_num

theorem birds_final_zero : birds_sample (texture_frames - 1) = 0 := by
  have hidx : texture_frames - 1 = 88199 := by norm_num [texture_frames]
  have ht : tof 88199 = 88199 / 22050 := by norm_num [tof, sample_rate]
  rw [hidx]
  simp only [birds_sample, bird_times, ht]
  norm_num [abs_lt]

theorem abs_sin3_le (x y z : ℚ) (a b : ℝ) (ha : 0 ≤ a) (hb : 0 ≤ b) :
    |sinOf x + a * sinOf y + b * sinOf z| ≤ 1 + a + b := by
  have h1 := abs_sinOf_le_one x
  have h2 := abs_scaled_sinOf_le y ha
  have h3 := abs_scaled_sinOf_le z hb
  calc |sinOf x + a * sinOf y + b * sinOf z|
      ≤ |sinOf x + a * sinOf y| + |b * sinOf z| := abs_add _ _
    _ ≤ (|sinOf x| + |a * sinOf y|) + |b * sinOf z| := by
        have := abs_add (sinOf x) (a * sinOf y)
        linarith
    _ ≤ 1 + a + b := by linarith

theorem abs_sin2_le (x y : ℚ) (a : ℝ) (ha : 0 ≤ a) :
    |sinOf x + a * sinOf y| ≤ 1 + a := by
  have h1 := abs_sinOf_le_one x
  have h2 := abs_scaled_sinOf_le y ha
  calc |sinOf x + a * sinOf y| ≤ |sinOf x| + |a * sinOf y| := abs_add _ _
    _ ≤ 1 + a := by linarith

theorem melodic_wave_bound (frequency : ℚ) (timbre : String) (t : ℚ) :
    |(melodic_wave_decay frequency timbre t).1| ≤ 1.6 ∧
    0 < (melodic_wave_decay frequency timbre t).2 := by
  unfold melodic_wave_decay
  split_ifs <;> refine ⟨?_, by norm_num⟩
  · have := abs_sin3_le (frequency * t) (frequency * 2 * t) (frequency * 3 * t)
      (0.3 : ℝ) (0.1 : ℝ) (by norm_num) (by norm_num)
    calc _ ≤ (1 : ℝ) + 0.3 + 0.1 := this
      _ ≤ 1.6 := by norm_num
  · calc _ ≤ (1 : ℝ) := abs_sinOf_le_one _
      _ ≤ 1.6 := by norm_num
  · have := abs_sin2_le (frequency * t) (frequency * (3/2) * t) (0.2 : ℝ) (by norm_num)
    calc _ ≤ (1 : ℝ) + 0.2 := this
      _ ≤ 1.6 := by norm_num
  · have := abs_sin3_le (frequency * t) (frequency * (5/2) * t) (frequency * 4 * t)
      (0.4 : ℝ) (0.2 : ℝ) (by norm_num) (by norm_num)
    calc _ ≤ (1 : ℝ) + 0.4 + 0.2 := this
      _ ≤ 1.6 := by norm_num
  · calc _ ≤ (1 : ℝ) := abs_sinOf_le_one _
      _ ≤ 1.6 := by norm_num

theorem melodic_final_sample_small (frequency : ℚ) (timbre : String) :
    |melodic_tone_sample frequency timbre (melodic_frames - 1)| ≤ 0.448 / 2205 := by
  have hmf : melodic_frames = 15435 := by
    unfold melodic_frames
    rw [show ⌊(0.7 : ℚ) * 22050⌋ = 15435 from by norm_num [Int.floor_eq_iff]]
    rfl
  have hidx : melodic_frames - 1 = 15434 := by rw [hmf]
  have ht : tof 15434 = 15434 / 22050 := by norm_num [tof, sample_rate]
  rw [hidx]
  obtain ⟨hw, hd⟩ := melodic_wave_bound frequency timbre (15434 / 22050)
  simp only [melodic_tone_sample, ht]
  rw [if_neg (by norm_num : ¬ (15434 / 22050 : ℚ) < 0.02),
    if_pos (by norm_num : (15434 / 22050 : ℚ) > 0.7 - 0.1)]
  have hdecay0 : 0 < Real.exp (-((15434 / 22050 : ℚ) : ℝ) *
      ((melodic_wave_decay frequency timbre (15434 / 22050)).2 : ℝ)) := Real.exp_pos _
  have hdecay1 : Real.exp (-((15434 / 22050 : ℚ) : ℝ) *
      ((melodic_wave_decay frequency timbre (15434 / 22050)).2 : ℝ)) ≤ 1 := by
    apply exp_le_one_of_nonpos
    have hd' : (0 : ℝ) < ((melodic_wave_decay frequency timbre (15434 / 22050)).2 : ℝ) := by
      exact_mod_cast hd
    have htpos : (0 : ℝ) < ((15434 / 22050 : ℚ) : ℝ) := by push_cast; norm_num
    nlinarith
  have hfade : ((0.7 : ℝ) - ((15434 / 22050 : ℚ) : ℝ)) / 0.1 = 1 / 2205 := by
    push_cast
    norm_num
  rw [one_mul, hfade]
  rw [abs_mul, abs_mul]
  have habs_decay : |Real.exp (-((15434 / 22050 : ℚ) : ℝ) *
      ((melodic_wave_decay frequency timbre (15434 / 22050)).2 : ℝ)) * (1 / 2205)| ≤ 1 / 2205 := by
    rw [abs_mul]
    rw [abs_of_pos hdecay0, abs_of_pos (by norm_num : (0:ℝ) < 1 / 2205)]
    nlinarith
  have h28 : |(0.28 : ℝ)| = 0.28 := by norm_num
  rw [h28]
  calc |(melodic_wave_decay frequency timbre (15434 / 22050)).1| *
        |Real.exp (-((15434 / 22050 : ℚ) : ℝ) *
          ((melodic_wave_decay frequency timbre (15434 / 22050)).2 : ℝ)) * (1 / 2205)| * 0.28
      ≤ 1.6 * (1 / 2205) * 0.28 := by
        have habs0 : (0 : ℝ) ≤ |(melodic_wave_decay frequency timbre (15434 / 22050)).1| :=
          abs_nonneg _
        have habs0' : (0 : ℝ) ≤ |Real.exp (-((15434 / 22050 : ℚ) : ℝ) *
            ((melodic_wave_decay frequency timbre (15434 / 22050)).2 : ℝ)) * (1 / 2205)| :=
          abs_nonneg _
        nlinarith
    _ = 0.448 / 2205 := by norm_num

/-- C2 counterexample: the sun background texture (the background drone at
200 Hz with harmonics) has a strictly negative final sample — the synthesis
layer does not end every buffer in exact silence. -/
theorem sun_drone_final_sample_nonzero :
    background_drone_sample 200 "sine" true (texture_frames - 1) ≠ 0 :=
  ne_of_lt sun_drone_final_negative

/-- C2 amended: the gated textures (rain, trees, birds, insects) end in a
silent rest slot, so their final sample is exactly 0; a melodic on tone's
linear fade-out reaches 0 only at t = duration, one sample past the buffer,
leaving its final sample bounded by 0.448/2205 (about 2e-4, at most 6 of
32767 quantization steps) but not exactly 0; and the continuous textures
have no fade-out at all — the sun drone's final sample is strictly
negative. -/
theorem final_sample_fade_behavior :
    rain_sample (texture_frames - 1) = 0 ∧
    trees_sample (texture_frames - 1) = 0 ∧
    birds_sample (texture_frames - 1) = 0 ∧
    insects_sample (texture_frames - 1) = 0 ∧
    (∀ (frequency : ℚ) (timbre : String),
      |melodic_tone_sample frequency timbre (melodic_frames - 1)| ≤ 0.448 / 2205) ∧
    background_drone_sample 200 "sine" true (texture_frames - 1) < 0 :=
  ⟨rain_final_zero, trees_final_zero, birds_final_zero, insects_final_zero,
    melodic_final_sample_small, sun_drone_final_negative⟩

theorem env_cases {c : Prop} [Decidable c] {v e : ℝ}
    (hv : c → 0 ≤ v ∧ v ≤ 1) (he : ¬ c → 0 ≤ e ∧ e ≤ 1) :
    0 ≤ (if c then v else e) ∧ (if c then v else e) ≤ 1 := by
  split_ifs with h
  exacts [hv h, he h]

theorem abs_ite_zero_le {c : Prop} [Decidable c] {x B : ℝ} (hB : 0 ≤ B)
    (hx : c → |x| ≤ B) : |if c then x else 0| ≤ B := by
  split_ifs with h
  exacts [hx h, by simpa using hB]

theorem tof_nonneg (i : ℕ) : 0 ≤ tof i := by
  unfold AudioSynthesizer.tof AudioSynthesizer.sample_rate
  positivity

theorem abs_lit_le {c : ℝ} (hc : 0 ≤ c) : |c| ≤ c := le_of_eq (abs_of_nonneg hc)

theorem abs_affine_sin_le (x : ℚ) (c a : ℝ) (hc : 0 ≤ c) (ha : 0 ≤ a) :
    |c + a * sinOf x| ≤ c + a := by
  have h2 := abs_scaled_sinOf_le x ha
  calc |c + a * sinOf x| ≤ |c| + |a * sinOf x| := abs_add _ _
    _ ≤ c + a := by rw [abs_of_nonneg hc]; linarith

theorem earth_sample_bound (i : ℕ) : |earth_sample i| ≤ 1 := by
  simp only [earth_sample]
  have h1 := abs_scaled_sinOf_le (65.41 * tof i) (by norm_num : (0:ℝ) ≤ 0.7)
  have h2 := abs_scaled_sinOf_le (65.41 * 2 * tof i) (by norm_num : (0:ℝ) ≤ 0.25)
  have h3 := abs_scaled_sinOf_le (65.41 * 3 * tof i) (by norm_num : (0:ℝ) ≤ 0.15)
  have h4 := abs_scaled_sinOf_le (98.00 * tof i) (by norm_num : (0:ℝ) ≤ 0.5)
  have h5 := abs_scaled_sinOf_le (98.00 * 2 * tof i) (by norm_num : (0:ℝ) ≤ 0.2)
  have h6 := abs_scaled_sinOf_le (130.81 * tof i) (by norm_num : (0:ℝ) ≤ 0.4)
  have h7 := abs_scaled_sinOf_le (130.81 * (3/2) * tof i) (by norm_num : (0:ℝ) ≤ 0.15)
  have hsum := abs_add_le_of_le (abs_add_le_of_le
    (abs_add_le_of_le (abs_add_le_of_le h1 h2) h3)
    (abs_add_le_of_le h4 h5)) (abs_add_le_of_le h6 h7)
  have hvib := abs_affine_sin_le (0.3 * tof i) 1 0.008 (by norm_num) (by norm_num)
  have hlfo := abs_affine_sin_le (0.08 * tof i) 0.82 0.18 (by norm_num) (by norm_num)
  have hfin := abs_mul_le_of_le (abs_mul_le_of_le (abs_mul_le_of_le hsum hvib) hlfo)
    (abs_lit_le (by norm_num : (0:ℝ) ≤ 0.154))
  calc |_| ≤ _ := hfin
    _ ≤ 1 := by norm_num

theorem wind_sample_bound (i : ℕ) : |wind_sample i| ≤ 1 := by
  simp only [wind_sample]
  have h1 := abs_scaled_sinOf_le (293.66 * tof i) (by norm_num : (0:ℝ) ≤ 0.6)
  have h2 := abs_scaled_sinOf_le (293.66 * (3/2) * tof i) (by norm_num : (0:ℝ) ≤ 0.2)
  have h3 := abs_scaled_sinOf_le (293.66 * 2 * tof i) (by norm_num : (0:ℝ) ≤ 0.1)
  have h4 := abs_scaled_sinOf_le (392.00 * tof i) (by norm_num : (0:ℝ) ≤ 0.5)
  have h5 := abs_scaled_sinOf_le (392.00 * (5/4) * tof i) (by norm_num : (0:ℝ) ≤ 0.15)
  have h6 := abs_scaled_sinOf_le (440.00 * tof i) (by norm_num : (0:ℝ) ≤ 0.45)
  have h7 := abs_scaled_sinOf_le (440.00 * (3/4) * tof i) (by norm_num : (0:ℝ) ≤ 0.12)
  have hsum := abs_add_le_of_le (abs_add_le_of_le
    (abs_add_le_of_le (abs_add_le_of_le h1 h2) h3)
    (abs_add_le_of_le h4 h5)) (abs_add_le_of_le h6 h7)
  have hsway := abs_affine_sin_le (0.5 * tof i) 1 0.005 (by norm_num) (by norm_num)
  have hgust := abs_affine_sin_le (0.25 * tof i) 0.4 0.6 (by norm_num) (by norm_num)
  have hflut := abs_affine_sin_le (1 * tof i) 1 0.15 (by norm_num) (by norm_num)
  have hfin := abs_mul_le_of_le (abs_mul_le_of_le (abs_mul_le_of_le
    (abs_mul_le_of_le hsum hsway) hgust) hflut)
    (abs_lit_le (by norm_num : (0:ℝ) ≤ 0.09))
  calc |_| ≤ _ := hfin
    _ ≤ 1 := by norm_num

theorem abs_triangle_wave_le (x : ℚ) : |2 * Real.arcsin (sinOf x) / Real.pi| ≤ 1 := by
  have h1 : |Real.arcsin (sinOf x)| ≤ Real.pi / 2 :=
    abs_le.mpr ⟨Real.neg_pi_div_two_le_arcsin _, Real.arcsin_le_pi_div_two _⟩
  have hpi := Real.pi_pos
  rw [abs_div, abs_of_pos hpi, div_le_one hpi, abs_mul]
  rw [show |(2:ℝ)| = 2 by norm_num]
  linarith

theorem background_drone_sample_bound (frequency : ℚ) (wave_type : String)
    (harmonics : Bool) (i : ℕ) : |background_drone_sample frequency wave_type harmonics i| ≤ 1 := by
  simp only [background_drone_sample]
  have hwave : |if wave_type = "sine" then
      sinOf (frequency * tof i) +
        (if harmonics then 0.3 * sinOf (frequency * (3/2) * tof i)
          + 0.2 * sinOf (frequency * 2 * tof i) else 0)
      else if wave_type = "triangle" then 2 * Real.arcsin (sinOf (frequency * tof i)) / Real.pi
      else sinOf (frequency * tof i)| ≤ 1.5 := by
    by_cases h1 : wave_type = "sine"
    · rw [if_pos h1]
      have ha := abs_sinOf_le_one (frequency * tof i)
      have hb : |if harmonics then 0.3 * sinOf (frequency * (3/2) * tof i)
          + 0.2 * sinOf (frequency * 2 * tof i) else 0| ≤ 0.5 := by
        cases harmonics with
        | false => norm_num
        | true =>
          rw [if_pos rfl]
          have := abs_add_le_of_le
            (abs_scaled_sinOf_le (frequency * (3/2) * tof i) (by norm_num : (0:ℝ) ≤ 0.3))
            (abs_scaled_sinOf_le (frequency * 2 * tof i) (by norm_num : (0:ℝ) ≤ 0.2))
          linarith
      have := abs_add_le_of_le ha hb
      linarith
    · rw [if_neg h1]
      by_cases h2 : wave_type = "triangle"
      · rw [if_pos h2]
        have := abs_triangle_wave_le (frequency * tof i)
        linarith
      · rw [if_neg h2]
        have := abs_sinOf_le_one (frequency * tof i)
        linarith
  have hmod := abs_affine_sin_le (0.5 * tof i) 1 0.1 (by norm_num) (by norm_num)
  have hfin := abs_mul_le_of_le (abs_mul_le_of_le hwave hmod)
    (abs_lit_le (by norm_num : (0:ℝ) ≤ 0.15))
  calc |_| ≤ _ := hfin
    _ ≤ 1 := by norm_num

theorem abs_le_one_of_mem {x : ℝ} (h0 : 0 ≤ x) (h1 : x ≤ 1) : |x| ≤ 1 := by
  rw [abs_of_nonneg h0]
  exact h1

theorem thunder_sample_bound (i : ℕ) : |thunder_sample i| ≤ 1 := by
  simp only [thunder_sample, thunder_strike_times, List.map_cons, List.map_nil,
    List.sum_cons, List.sum_nil]
  have h1 := abs_scaled_sinOf_le (32.70 * tof i) (by norm_num : (0:ℝ) ≤ 0.8)
  have h2 := abs_scaled_sinOf_le (32.70 * 2 * tof i) (by norm_num : (0:ℝ) ≤ 0.4)
  have h3 := abs_scaled_sinOf_le (32.70 * 3 * tof i) (by norm_num : (0:ℝ) ≤ 0.2)
  have h4 := abs_scaled_sinOf_le (49.00 * tof i) (by norm_num : (0:ℝ) ≤ 0.6)
  have h5 := abs_scaled_sinOf_le (49.00 * 2 * tof i) (by norm_num : (0:ℝ) ≤ 0.3)
  have h6 := abs_scaled_sinOf_le (65.41 * tof i) (by norm_num : (0:ℝ) ≤ 0.5)
  have h7 := abs_scaled_sinOf_le (65.41 * (3/2) * tof i) (by norm_num : (0:ℝ) ≤ 0.25)
  have h8 := abs_scaled_sinOf_le (65.41 * (5/2) * tof i) (by norm_num : (0:ℝ) ≤ 0.15)
  have hbass := abs_add_le_of_le (abs_add_le_of_le
    (abs_add_le_of_le (abs_add_le_of_le h1 h2) h3)
    (abs_add_le_of_le h4 h5)) (abs_add_le_of_le (abs_add_le_of_le h6 h7) h8)
  have hterm : ∀ st : ℚ,
      |if 0 ≤ tof i - st ∧ tof i - st ≤ 1.8 then
          (0.8 * sinOf (32.70 * tof i) + 0.4 * sinOf (32.70 * 2 * tof i)
            + 0.2 * sinOf (32.70 * 3 * tof i)
            + (0.6 * sinOf (49.00 * tof i) + 0.3 * sinOf (49.00 * 2 * tof i))
            + (0.5 * sinOf (65.41 * tof i) + 0.25 * sinOf (65.41 * (3/2) * tof i)
              + 0.15 * sinOf (65.41 * (5/2) * tof i))) *
          (if tof i - st < 0.05 then ((tof i - st : ℚ) : ℝ) * 20
           else Real.exp (-(((tof i - st : ℚ) : ℝ) - 0.05) * 1.2))
        else 0| ≤ 3.2 := by
    intro st
    apply abs_ite_zero_le (by norm_num)
    rintro ⟨hc1, hc2⟩
    have hc1' : (0 : ℝ) ≤ ((tof i - st : ℚ) : ℝ) := by exact_mod_cast hc1
    have hbass32 : |0.8 * sinOf (32.70 * tof i) + 0.4 * sinOf (32.70 * 2 * tof i)
        + 0.2 * sinOf (32.70 * 3 * tof i)
        + (0.6 * sinOf (49.00 * tof i) + 0.3 * sinOf (49.00 * 2 * tof i))
        + (0.5 * sinOf (65.41 * tof i) + 0.25 * sinOf (65.41 * (3/2) * tof i)
          + 0.15 * sinOf (65.41 * (5/2) * tof i))| ≤ 3.2 := le_trans hbass (by norm_num)
    refine le_trans (abs_mul_le_of_le hbass32 (abs_le_one_of_mem ?_ ?_)) (by norm_num)
    · split_ifs with h
      · exact mul_nonneg hc1' (by norm_num)
      · exact (Real.exp_pos _).le
    · split_ifs with h
      · have hq : (tof i - st : ℚ) < 1/20 := by linarith
        have h' : ((tof i - st : ℚ) : ℝ) < ((1/20 : ℚ) : ℝ) := by exact_mod_cast hq
        push_cast at h' ⊢
        nlinarith
      · push_neg at h
        have hq : (1/20 : ℚ) ≤ tof i - st := by linarith
        have h' : ((1/20 : ℚ) : ℝ) ≤ ((tof i - st : ℚ) : ℝ) := by exact_mod_cast hq
        apply exp_le_one_of_nonpos
        push_cast at h' ⊢
        nlinarith
  by_cases hc2 : (0 ≤ tof i - 2.2 ∧ tof i - 2.2 ≤ 1.8)
  · have h1neg : ¬ (0 ≤ tof i - 0.3 ∧ tof i - 0.3 ≤ 1.8) := by
      rintro ⟨ha, hb⟩
      obtain ⟨hc, hd⟩ := hc2
      linarith
    rw [if_neg h1neg, zero_add, add_zero]
    exact le_trans (abs_mul_le_of_le (hterm 2.2) (abs_lit_le (by norm_num))) (by norm_num)
  · rw [if_neg hc2, zero_add, add_zero]
    exact le_trans (abs_mul_le_of_le (hterm 0.3) (abs_lit_le (by norm_num))) (by norm_num)

theorem rain_sample_bound (i : ℕ) : |rain_sample i| ≤ 1 := by
  simp only [rain_sample]
  cases hrf : rain_freq_at (⌊qmod (tof i) 4 / 0.25⌋ % 16) with
  | none =>
    simp only [hrf]
    norm_num
  | some f =>
    simp only [hrf]
    have henv : |if qmod (tof i) 0.25 / 0.25 < 0.1
        then ((qmod (tof i) 0.25 / 0.25 : ℚ) : ℝ) * 10
        else Real.exp (-(((qmod (tof i) 0.25 / 0.25 : ℚ) : ℝ) - 0.1) * 6)| ≤ 1 := by
      have hnt : (0 : ℚ) ≤ qmod (tof i) 0.25 / 0.25 :=
        div_nonneg (qmod_nonneg _ (by norm_num)) (by norm_num)
      have hnt' : (0 : ℝ) ≤ ((qmod (tof i) 0.25 / 0.25 : ℚ) : ℝ) := by exact_mod_cast hnt
      apply abs_le_one_of_mem
      · split_ifs with h
        · exact mul_nonneg hnt' (by norm_num)
        · exact (Real.exp_pos _).le
      · split_ifs with h
        · have hq : (qmod (tof i) 0.25 / 0.25 : ℚ) < 1/10 := by linarith
          have h' : ((qmod (tof i) 0.25 / 0.25 : ℚ) : ℝ) < ((1/10 : ℚ) : ℝ) := by
            exact_mod_cast hq
          push_cast at h' ⊢
          nlinarith
        · push_neg at h
          have hq : (1/10 : ℚ) ≤ qmod (tof i) 0.25 / 0.25 := by linarith
          have h' : ((1/10 : ℚ) : ℝ) ≤ ((qmod (tof i) 0.25 / 0.25 : ℚ) : ℝ) := by
            exact_mod_cast hq
          apply exp_le_one_of_nonpos
          push_cast at h' ⊢
          nlinarith
    have ha := abs_mul_le_of_le (abs_sinOf_le_one (f * tof i)) henv
    have hb := abs_mul_le_of_le
      (abs_scaled_sinOf_le (f * (3/2) * tof i) (by norm_num : (0:ℝ) ≤ 0.15)) henv
    exact le_trans (abs_mul_le_of_le (abs_add_le_of_le ha hb)
      (abs_lit_le (by norm_num))) (by norm_num)

theorem trees_vol_mem (hit_type : String) :
    0 ≤ ((trees_freq_vol hit_type).2 : ℝ) ∧ ((trees_freq_vol hit_type).2 : ℝ) ≤ 1 := by
  unfold trees_freq_vol
  split_ifs <;> constructor <;> norm_num

theorem trees_sample_bound (i : ℕ) : |trees_sample i| ≤ 1 := by
  simp only [trees_sample]
  refine le_trans (abs_mul_le_of_le
    (abs_hit_sum_le trees_hit_pattern _ (⌊qmod (tof i) 4 / 0.25⌋) 1.5 (by norm_num)
      (by decide) ?_ ?_)
    (abs_lit_le (by norm_num))) (by norm_num)
  · intro hit hm hne
    exact if_neg (fun hcon => hne hcon.1)
  · intro hit hm
    apply abs_ite_zero_le (by norm_num)
    rintro ⟨hkeq, hntlt⟩
    have hnt : (0 : ℚ) ≤ qmod (qmod (tof i) 4 / 0.25) 1 * 0.25 :=
      mul_nonneg (qmod_nonneg _ one_pos) (by norm_num)
    have hnt' : (0 : ℝ) ≤ ((qmod (qmod (tof i) 4 / 0.25) 1 * 0.25 : ℚ) : ℝ) := by
      exact_mod_cast hnt
    obtain ⟨hv0, hv1⟩ := trees_vol_mem hit.2
    have hclick : |if qmod (qmod (tof i) 4 / 0.25) 1 * 0.25 < 0.005
        then 0.2 * sinOf ((trees_freq_vol hit.2).1 * 3 * tof i) else 0| ≤ 0.2 :=
      abs_ite_zero_le (by norm_num) (fun _ => abs_scaled_sinOf_le _ (by norm_num))
    have hwave := abs_add_le_of_le (abs_add_le_of_le
      (abs_sinOf_le_one ((trees_freq_vol hit.2).1 * tof i))
      (abs_scaled_sinOf_le ((trees_freq_vol hit.2).1 * (3/2) * tof i)
        (by norm_num : (0:ℝ) ≤ 0.3))) hclick
    have henv : |if qmod (qmod (tof i) 4 / 0.25) 1 * 0.25 < 0.01
        then ((qmod (qmod (tof i) 4 / 0.25) 1 * 0.25 : ℚ) : ℝ) * 100
        else Real.exp (-(((qmod (qmod (tof i) 4 / 0.25) 1 * 0.25 : ℚ) : ℝ) - 0.01) * 12)|
        ≤ 1 := by
      apply abs_le_one_of_mem
      · split_ifs with h
        · exact mul_nonneg hnt' (by norm_num)
        · exact (Real.exp_pos _).le
      · split_ifs with h
        · have hq : (qmod (qmod (tof i) 4 / 0.25) 1 * 0.25 : ℚ) < 1/100 := by linarith
          have h' : ((qmod (qmod (tof i) 4 / 0.25) 1 * 0.25 : ℚ) : ℝ) < ((1/100 : ℚ) : ℝ) := by
            exact_mod_cast hq
          push_cast at h' ⊢
          nlinarith
        · push_neg at h
          have hq : (1/100 : ℚ) ≤ qmod (qmod (tof i) 4 / 0.25) 1 * 0.25 := by linarith
          have h' : ((1/100 : ℚ) : ℝ) ≤ ((qmod (qmod (tof i) 4 / 0.25) 1 * 0.25 : ℚ) : ℝ) := by
            exact_mod_cast hq
          apply exp_le_one_of_nonpos
          push_cast at h' ⊢
          nlinarith
    calc _ ≤ ((1 : ℝ) + 0.3 + 0.2) * 1 * 1 :=
          abs_mul_le_of_le (abs_mul_le_of_le hwave henv) (abs_le_one_of_mem hv0 hv1)
      _ ≤ 1.5 := by norm_num

theorem insects_params_mem (hit_type : String) :
    0 ≤ ((insects_freq_vol_decay hit_type).2.1 : ℝ) ∧
    ((insects_freq_vol_decay hit_type).2.1 : ℝ) ≤ 0.8 ∧
    (0 : ℝ) ≤ ((insects_freq_vol_decay hit_type).2.2 : ℝ) := by
  unfold insects_freq_vol_decay
  split_ifs <;> refine ⟨?_, ?_, ?_⟩ <;> norm_num

theorem insects_sample_bound (i : ℕ) : |insects_sample i| ≤ 1 := by
  simp only [insects_sample]
  refine le_trans (abs_mul_le_of_le
    (abs_hit_sum_le insects_hihat_pattern _ (⌊qmod (tof i) 4 / 0.25⌋) 1.36 (by norm_num)
      (by decide) ?_ ?_)
    (abs_lit_le (by norm_num))) (by norm_num)
  · intro hit hm hne
    exact if_neg (fun hcon => hne hcon.1)
  · intro hit hm
    apply abs_ite_zero_le (by norm_num)
    rintro ⟨hkeq, hntlt⟩
    have hnt : (0 : ℚ) ≤ qmod (qmod (tof i) 4 / 0.25) 1 * 0.25 :=
      mul_nonneg (qmod_nonneg _ one_pos) (by norm_num)
    have hnt' : (0 : ℝ) ≤ ((qmod (qmod (tof i) 4 / 0.25) 1 * 0.25 : ℚ) : ℝ) := by
      exact_mod_cast hnt
    obtain ⟨hv0, hv1, hr0⟩ := insects_params_mem hit.2
    have hwave := abs_add_le_of_le (abs_add_le_of_le (abs_add_le_of_le
      (abs_sinOf_le_one ((insects_freq_vol_decay hit.2).1 * tof i))
      (abs_scaled_sinOf_le ((insects_freq_vol_decay hit.2).1 * (13/10) * tof i)
        (by norm_num : (0:ℝ) ≤ 0.4)))
      (abs_scaled_sinOf_le ((insects_freq_vol_decay hit.2).1 * (17/10) * tof i)
        (by norm_num : (0:ℝ) ≤ 0.2)))
      (abs_scaled_sinOf_le ((insects_freq_vol_decay hit.2).1 * (21/10) * tof i)
        (by norm_num : (0:ℝ) ≤ 0.1))
    have henv : |if qmod (qmod (tof i) 4 / 0.25) 1 * 0.25 < 0.002
        then ((qmod (qmod (tof i) 4 / 0.25) 1 * 0.25 : ℚ) : ℝ) * 500
        else Real.exp (-(((qmod (qmod (tof i) 4 / 0.25) 1 * 0.25 : ℚ) : ℝ) - 0.002) *
          ((insects_freq_vol_decay hit.2).2.2 : ℝ))| ≤ 1 := by
      apply abs_le_one_of_mem
      · split_ifs with h
        · exact mul_nonneg hnt' (by norm_num)
        · exact (Real.exp_pos _).le
      · split_ifs with h
        · have hq : (qmod (qmod (tof i) 4 / 0.25) 1 * 0.25 : ℚ) < 1/500 := by linarith
          have h' : ((qmod (qmod (tof i) 4 / 0.25) 1 * 0.25 : ℚ) : ℝ) < ((1/500 : ℚ) : ℝ) := by
            exact_mod_cast hq
          push_cast at h' ⊢
          nlinarith
        · push_neg at h
          have hq : (1/500 : ℚ) ≤ qmod (qmod (tof i) 4 / 0.25) 1 * 0.25 := by linarith
          have h' : ((1/500 : ℚ) : ℝ) ≤ ((qmod (qmod (tof i) 4 / 0.25) 1 * 0.25 : ℚ) : ℝ) := by
            exact_mod_cast hq
          apply exp_le_one_of_nonpos
          push_cast at h' ⊢
          nlinarith
    have hvm : |((insects_freq_vol_decay hit.2).2.1 : ℝ)| ≤ 0.8 := by
      rw [abs_of_nonneg hv0]
      exact hv1
    calc _ ≤ ((1 : ℝ) + 0.4 + 0.2 + 0.1) * 1 * 0.8 :=
          abs_mul_le_of_le (abs_mul_le_of_le hwave henv) hvm
      _ ≤ 1.36 := by norm_num

theorem birds_sample_bound (i : ℕ) : |birds_sample i| ≤ 1 := by
  simp only [birds_sample, bird_times, List.map_cons, List.map_nil, List.sum_cons,
    List.sum_nil]
  have hterm : ∀ bt : ℚ,
      |if |tof i - bt| < 0.3 then
          (if 0 ≤ tof i - bt + 0.3 then
            Real.sin (2 * Real.pi * (1200 + 200 * sinOf (8 * (tof i - bt + 0.3))) *
                ((tof i - bt + 0.3 : ℚ) : ℝ)) *
              Real.exp (-((tof i - bt + 0.3 : ℚ) : ℝ) * 3)
           else 0)
        else 0| ≤ 1 := by
    intro bt
    apply abs_ite_zero_le (by norm_num)
    intro _
    apply abs_ite_zero_le (by norm_num)
    intro hlt
    have hlt' : (0 : ℝ) ≤ ((tof i - bt + 0.3 : ℚ) : ℝ) := by exact_mod_cast hlt
    refine le_trans (abs_mul_le_of_le
      (abs_le.mpr ⟨Real.neg_one_le_sin _, Real.sin_le_one _⟩)
      (abs_le_one_of_mem (Real.exp_pos _).le (exp_le_one_of_nonpos (by nlinarith))))
      (by norm_num)
  have hsum := abs_add_le_of_le (hterm 0.5) (abs_add_le_of_le (hterm 1.8)
    (abs_add_le_of_le (hterm 3.2) (by simp : |(0:ℝ)| ≤ 0)))
  exact le_trans (abs_mul_le_of_le hsum (abs_lit_le (by norm_num))) (by norm_num)

theorem melodic_frames_eq : melodic_frames = 15435 := by
  unfold melodic_frames
  rw [show ⌊(0.7 : ℚ) * 22050⌋ = 15435 from by norm_num [Int.floor_eq_iff]]
  rfl

theorem melodic_off_frames_eq : melodic_off_frames = 6615 := by
  unfold melodic_off_frames
  rw [show ⌊(0.3 : ℚ) * 22050⌋ = 6615 from by norm_num [Int.floor_eq_iff]]
  rfl

theorem melodic_off_wave_bound (off_frequency : ℚ) (timbre : String) (t : ℚ) :
    |(melodic_off_wave_decay off_frequency timbre t).1| ≤ 1.3 ∧
    0 < (melodic_off_wave_decay off_frequency timbre t).2 := by
  unfold melodic_off_wave_decay
  split_ifs <;> refine ⟨?_, by norm_num⟩
  · have := abs_sin2_le (off_frequency * t) (off_frequency * 2 * t) (0.15 : ℝ) (by norm_num)
    calc _ ≤ (1 : ℝ) + 0.15 := this
      _ ≤ 1.3 := by norm_num
  · calc _ ≤ (1 : ℝ) := abs_sinOf_le_one _
      _ ≤ 1.3 := by norm_num
  · have := abs_sin2_le (off_frequency * t) (off_frequency * (3/2) * t) (0.1 : ℝ) (by norm_num)
    calc _ ≤ (1 : ℝ) + 0.1 := this
      _ ≤ 1.3 := by norm_num
  · have := abs_sin3_le (off_frequency * t) (off_frequency * (5/2) * t) (off_frequency * 4 * t)
      (0.2 : ℝ) (0.1 : ℝ) (by norm_num) (by norm_num)
    calc _ ≤ (1 : ℝ) + 0.2 + 0.1 := this
      _ ≤ 1.3 := by norm_num
  · calc _ ≤ (1 : ℝ) := abs_sinOf_le_one _
      _ ≤ 1.3 := by norm_num

theorem melodic_tone_sample_bound (frequency : ℚ) (timbre : String) (i : ℕ)
    (hi : i < melodic_frames) : |melodic_tone_sample frequency timbre i| ≤ 1 := by
  simp only [melodic_tone_sample]
  obtain ⟨hw, hd⟩ := melodic_wave_bound frequency timbre (tof i)
  have ht0 : 0 ≤ tof i := tof_nonneg i
  have ht0' : (0 : ℝ) ≤ ((tof i : ℚ) : ℝ) := by exact_mod_cast ht0
  have ht7 : (tof i : ℚ) < 7/10 := by
    rw [melodic_frames_eq] at hi
    have hle : (i : ℚ) ≤ 15434 := by exact_mod_cast Nat.lt_succ_iff.mp hi
    unfold AudioSynthesizer.tof AudioSynthesizer.sample_rate
    rw [div_lt_iff₀ (by norm_num)]
    linarith
  have hattack : |if tof i < 0.02 then ((tof i : ℚ) : ℝ) / 0.02 else 1| ≤ 1 := by
    apply abs_le_one_of_mem
    · split_ifs with h
      · positivity
      · norm_num
    · split_ifs with h
      · have hq : (tof i : ℚ) < 1/50 := by linarith
        have h' : ((tof i : ℚ) : ℝ) < ((1/50 : ℚ) : ℝ) := by exact_mod_cast hq
        push_cast at h'
        rw [div_le_one (by norm_num)]
        linarith
      · norm_num
  have hdecay : |Real.exp (-((tof i : ℚ) : ℝ) *
      ((melodic_wave_decay frequency timbre (tof i)).2 : ℝ))| ≤ 1 := by
    apply abs_le_one_of_mem (Real.exp_pos _).le
    apply exp_le_one_of_nonpos
    have hd' : (0 : ℝ) ≤ ((melodic_wave_decay frequency timbre (tof i)).2 : ℝ) := by
      exact_mod_cast hd.le
    nlinarith
  have hfade : |if tof i > 0.7 - 0.1 then ((0.7 : ℝ) - ((tof i : ℚ) : ℝ)) / 0.1 else 1| ≤ 1 := by
    apply abs_le_one_of_mem
    · split_ifs with h
      · have h' : ((tof i : ℚ) : ℝ) < ((7/10 : ℚ) : ℝ) := by exact_mod_cast ht7
        push_cast at h'
        apply div_nonneg _ (by norm_num)
        norm_num
        linarith
      · norm_num
    · split_ifs with h
      · have hq : (3/5 : ℚ) < tof i := by linarith
        have h' : ((3/5 : ℚ) : ℝ) < ((tof i : ℚ) : ℝ) := by exact_mod_cast hq
        push_cast at h'
        rw [div_le_one (by norm_num)]
        norm_num
        linarith
      · norm_num
  have henv := abs_mul_le_of_le (abs_mul_le_of_le hattack hdecay) hfade
  calc _ ≤ (1.6 : ℝ) * (1 * 1 * 1) * 0.28 :=
        abs_mul_le_of_le (abs_mul_le_of_le hw henv) (abs_lit_le (by norm_num))
    _ ≤ 1 := by norm_num

theorem melodic_tone_off_sample_bound (frequency : ℚ) (timbre : String) (i : ℕ)
    (hi : i < melodic_off_frames) : |melodic_tone_off_sample frequency timbre i| ≤ 1 := by
  simp only [melodic_tone_off_sample]
  obtain ⟨hw, hd⟩ := melodic_off_wave_bound (frequency * 0.85) timbre (tof i)
  have ht0 : 0 ≤ tof i := tof_nonneg i
  have ht0' : (0 : ℝ) ≤ ((tof i : ℚ) : ℝ) := by exact_mod_cast ht0
  have ht3 : (tof i : ℚ) < 3/10 := by
    rw [melodic_off_frames_eq] at hi
    have hle : (i : ℚ) ≤ 6614 := by exact_mod_cast Nat.lt_succ_iff.mp hi
    unfold AudioSynthesizer.tof AudioSynthesizer.sample_rate
    rw [div_lt_iff₀ (by norm_num)]
    linarith
  have hattack : |if tof i < 0.01 then ((tof i : ℚ) : ℝ) / 0.01 else 1| ≤ 1 := by
    apply abs_le_one_of_mem
    · split_ifs with h
      · positivity
      · norm_num
    · split_ifs with h
      · have hq : (tof i : ℚ) < 1/100 := by linarith
        have h' : ((tof i : ℚ) : ℝ) < ((1/100 : ℚ) : ℝ) := by exact_mod_cast hq
        push_cast at h'
        rw [div_le_one (by norm_num)]
        linarith
      · norm_num
  have hdecay : |Real.exp (-((tof i : ℚ) : ℝ) *
      ((melodic_off_wave_decay (frequency * 0.85) timbre (tof i)).2 : ℝ))| ≤ 1 := by
    apply abs_le_one_of_mem (Real.exp_pos _).le
    apply exp_le_one_of_nonpos
    have hd' : (0 : ℝ) ≤ ((melodic_off_wave_decay (frequency * 0.85) timbre (tof i)).2 : ℝ) := by
      exact_mod_cast hd.le
    nlinarith
  have hfade : |if tof i > 0.3 - 0.05 then ((0.3 : ℝ) - ((tof i : ℚ) : ℝ)) / 0.05 else 1| ≤ 1 := by
    apply abs_le_one_of_mem
    · split_ifs with h
      · have h' : ((tof i : ℚ) : ℝ) < ((3/10 : ℚ) : ℝ) := by exact_mod_cast ht3
        push_cast at h'
        apply div_nonneg _ (by norm_num)
        norm_num
        linarith
      · norm_num
    · split_ifs with h
      · have hq : (1/4 : ℚ) < tof i := by linarith
        have h' : ((1/4 : ℚ) : ℝ) < ((tof i : ℚ) : ℝ) := by exact_mod_cast hq
        push_cast at h'
        rw [div_le_one (by norm_num)]
        norm_num
        linarith
      · norm_num
  have henv := abs_mul_le_of_le (abs_mul_le_of_le hattack hdecay) hfade
  calc _ ≤ (1.3 : ℝ) * (1 * 1 * 1) * 0.18 :=
        abs_mul_le_of_le (abs_mul_le_of_le hw henv) (abs_lit_le (by norm_num))
    _ ≤ 1 := by norm_num

theorem safe_of_abs_le_one {x : ℝ} (h : |x| ≤ 1) : safe_sample x :=
  ⟨h, (astype_int16_bounds h).1, (astype_int16_bounds h).2⟩

/-- C4: every sample of every background texture (earth, rain, wind,
thunder — the loudest, at peak gain 0.22 — trees, birds, insects, and the
sun drone, for any drone arguments) and every sample of every melodic on and
off tone lies in [-1, 1] before quantization, and its quantized value lies
within the signed 16-bit range. -/
theorem all_samples_within_safe_range :
    ∀ (i : ℕ) (frequency : ℚ) (timbre wave_type : String) (harmonics : Bool),
      safe_sample (earth_sample i) ∧
      safe_sample (rain_sample i) ∧
      safe_sample (wind_sample i) ∧
      safe_sample (thunder_sample i) ∧
      safe_sample (trees_sample i) ∧
      safe_sample (birds_sample i) ∧
      safe_sample (insects_sample i) ∧
      safe_sample (background_drone_sample frequency wave_type harmonics i) ∧
      (i < melodic_frames → safe_sample (melodic_tone_sample frequency timbre i)) ∧
      (i < melodic_off_frames → safe_sample (melodic_tone_off_sample frequency timbre i)) := by
  intro i f tb wt hm
  exact ⟨safe_of_abs_le_one (earth_sample_bound i),
    safe_of_abs_le_one (rain_sample_bound i),
    safe_of_abs_le_one (wind_sample_bound i),
    safe_of_abs_le_one (thunder_sample_bound i),
    safe_of_abs_le_one (trees_sample_bound i),
    safe_of_abs_le_one (birds_sample_bound i),
    safe_of_abs_le_one (insects_sample_bound i),
    safe_of_abs_le_one (background_drone_sample_bound f wt hm i),
    fun hi => safe_of_abs_le_one (melodic_tone_sample_bound f tb i hi),
    fun hi => safe_of_abs_le_one (melodic_tone_off_sample_bound f tb i hi)⟩

/-- Concrete run of all_samples_within_safe_range: sample 0 of the bell
melodic tone at the C4 seed frequency, and sample 0 of its off variant. -/
theorem all_samples_within_safe_range_witness :
    0 < melodic_frames ∧ 0 < melodic_off_frames ∧
    safe_sample (melodic_tone_sample 261.63 "bell" 0) ∧
    safe_sample (melodic_tone_off_sample 261.63 "bell" 0) := by
  have h0 : 0 < melodic_frames := by rw [melodic_frames_eq]; norm_num
  have h1 : 0 < melodic_off_frames := by rw [melodic_off_frames_eq]; norm_num
  have h := all_samples_within_safe_range 0 261.63 "bell" "sine" true
  exact ⟨h0, h1, h.2.2.2.2.2.2.2.2.1 h0, h.2.2.2.2.2.2.2.2.2 h1⟩

end NatureSounds

end MidiSparkle
